import Mathlib

set_option maxHeartbeats 1000000

namespace ZigCodegen

/-!
Shallow embedding of src/src/codegen.cpp, the semantic-analysis and lowering
core of the early zig compiler.

Modelling conventions, matching the C++ source:
* LLVM handles are modelled explicitly.  A type entity handle
  (TypeTableEntry pointer) is an index into an allocation arena
  (the list St.arena); identity of entities is equality of indices.
  A global handle is an index into the module global list, a function
  handle an index into the module function list, an instruction handle
  an index into the list of instructions the builder has emitted.
* The builder is the list St.instrs of instructions emitted so far, in
  emission order.
* Debug-info handles (llvm::DIType, DIBuilder, createFunction and so on)
  and the target-machine setup are not modelled; no claim concerns them.
* Buf values (length-tracked byte buffers) are modelled as String for
  names and messages and as List Nat (byte values) for string literals.
* HashMap with buf_hash and buf_eql_buf keys is modelled as an
  association list with content-keyed lookup; put overwrites an existing
  key and otherwise appends, maybe_get returns the bound value.
* The C++ attaches a resolved type entity to each NodeTypeType AST node
  in place (node->codegen_node->data.type_node.entry).  Here analysis
  returns an annotated copy of the node instead; the annotated nodes are
  stored in fn_defs and fn_table exactly where the C++ stores pointers to
  the (by then annotated) AST nodes.
-/

/-- Source position carried by every AST node (node->line, node->column). -/
structure Pos where
  line : Int
  column : Int
deriving DecidableEq, Repr

/-- LLVM types, as produced by LLVMInt8Type, LLVMVoidType, LLVMPointerType,
LLVMFunctionType and LLVMTypeOf on a constant string. -/
inductive LLVMType where
  | int (width : Nat)
  | voidT
  | ptr (elem : LLVMType)
  | arr (len : Nat) (elem : LLVMType)
  | fnT (ret : LLVMType) (params : List LLVMType)

/-- LLVM constant values. -/
inductive LLVMConst where
  | nullConst (ty : LLVMType)
  | intConst (ty : LLVMType) (v : Int)
  | stringConst (bytes : List Nat)

/-- LLVMTypeOf restricted to the constants the source builds. -/
def constTypeOf : LLVMConst → LLVMType
  | .nullConst t => t
  | .intConst t _ => t
  | .stringConst bs => .arr bs.length (.int 8)

/-- LLVMConstString Str Length DontNullTerminate.  When DontNullTerminate is
false (as at codegen.cpp:421) LLVM appends a NUL byte to the data. -/
def llvmConstString (bytes : List Nat) (dontNullTerminate : Bool) : LLVMConst :=
  .stringConst (if dontNullTerminate then bytes else bytes ++ [0])

inductive Linkage where
  | externalLinkage
  | privateLinkage
deriving DecidableEq, Repr

inductive CallConv where
  | ccall
deriving DecidableEq, Repr

inductive FnAttr where
  | noreturn
  | nounwind
deriving DecidableEq, Repr

/-- LLVMValueRef: the kinds of value handles the source passes around. -/
inductive Val where
  | constVal (c : LLVMConst)
  | globalRef (gid : Nat)
  | instrRef (iid : Nat)

/-- Instructions emitted through the builder. -/
inductive Instr where
  | call (callee : Nat) (args : List Val)
  | gep (base : Val) (indices : List LLVMConst) (inbounds : Bool)
  | unreachableInstr
  | ret (v : Val)

/-- A module global created by LLVMAddGlobal plus the setters applied to it. -/
structure GlobalVar where
  ty : LLVMType
  gname : String
  linkage : Linkage
  initializer : Option LLVMConst
  is_constant : Bool
  unnamed_addr : Bool

/-! ## AST (input), mirroring parser.hpp node kinds. -/

/-- NodeTypeType: either AstNodeTypeTypePrimitive (a name) or
AstNodeTypeTypePointer (constness flag plus child type node). -/
inductive TypeRefNode where
  | primitive (pos : Pos) (name : String)
  | pointer (pos : Pos) (is_const : Bool) (child : TypeRefNode)
deriving DecidableEq, Repr

/-- Structural content of a type reference, positions erased.  Used to state
structural equality of TypeRef nodes. -/
inductive Ty where
  | prim (name : String)
  | ptr (is_const : Bool) (child : Ty)
deriving DecidableEq, Repr

def TypeRefNode.toTy : TypeRefNode → Ty
  | .primitive _ n => .prim n
  | .pointer _ k c => .ptr k c.toTy

/-- NodeTypeParamDecl. -/
structure ParamDecl where
  pos : Pos
  pname : String
  type : TypeRefNode
deriving DecidableEq, Repr

/-- NodeTypeFnProto. -/
structure FnProto where
  pos : Pos
  name : String
  params : List ParamDecl
  return_type : TypeRefNode
deriving DecidableEq, Repr

/-- NodeTypeFnDecl (inside an extern block). -/
structure FnDecl where
  pos : Pos
  fn_proto : FnProto
deriving DecidableEq, Repr

/-- NodeTypeExternBlock. -/
structure ExternBlock where
  pos : Pos
  fn_decls : List FnDecl
deriving DecidableEq, Repr

mutual
/-- NodeTypeExpression with its AstNodeExpressionType payload. -/
inductive Expr where
  | number (pos : Pos) (digits : String)
  | stringLit (pos : Pos) (bytes : List Nat)
  | fnCallE (pos : Pos) (call : FnCallNode)
  | unreachableE (pos : Pos)

/-- NodeTypeFnCall: callee name plus ordered argument expressions. -/
inductive FnCallNode where
  | mk (pos : Pos) (name : String) (args : List Expr)
end

def FnCallNode.pos : FnCallNode → Pos
  | .mk p _ _ => p

def FnCallNode.name : FnCallNode → String
  | .mk _ n _ => n

def FnCallNode.args : FnCallNode → List Expr
  | .mk _ _ a => a

/-- NodeTypeStatement. -/
inductive Stmt where
  | exprStmt (pos : Pos) (expr : Expr)
  | returnStmt (pos : Pos) (expr : Expr)

/-- NodeTypeBlock. -/
structure Block where
  pos : Pos
  statements : List Stmt

/-- NodeTypeFnDef. -/
structure FnDef where
  pos : Pos
  fn_proto : FnProto
  body : Block

/-- A top-level declaration under NodeTypeRoot. -/
inductive TopLevelDecl where
  | fnDef (d : FnDef)
  | externBlock (b : ExternBlock)

/-- NodeTypeRoot. -/
structure RootNode where
  pos : Pos
  top_level_decls : List TopLevelDecl

/-! ## Annotated AST: type reference nodes with the attached entity index
(node->codegen_node->data.type_node.entry). -/

inductive ATypeRef where
  | primitive (pos : Pos) (name : String) (entry : Nat)
  | pointer (pos : Pos) (is_const : Bool) (child : ATypeRef) (entry : Nat)
deriving DecidableEq, Repr

/-- The attached type entity (arena index). -/
def ATypeRef.entry : ATypeRef → Nat
  | .primitive _ _ e => e
  | .pointer _ _ _ e => e

/-- Forget the attached entities, recovering the input node. -/
def ATypeRef.strip : ATypeRef → TypeRefNode
  | .primitive p n _ => .primitive p n
  | .pointer p k c _ => .pointer p k c.strip

def ATypeRef.toTy : ATypeRef → Ty
  | .primitive _ n _ => .prim n
  | .pointer _ k c _ => .ptr k c.toTy

/-- All type reference nodes inside an annotated node, itself included. -/
def ATypeRef.subnodes : ATypeRef → List ATypeRef
  | .primitive p n e => [.primitive p n e]
  | .pointer p k c e => .pointer p k c e :: c.subnodes

structure AParamDecl where
  pos : Pos
  pname : String
  type : ATypeRef
deriving DecidableEq, Repr

structure AFnProto where
  pos : Pos
  name : String
  params : List AParamDecl
  return_type : ATypeRef
deriving DecidableEq, Repr

/-- Forget the attached entities of an analyzed prototype, recovering the
input prototype node. -/
def AFnProto.strip (p : AFnProto) : FnProto :=
  { pos := p.pos, name := p.name,
    params := p.params.map
      (fun q => { pos := q.pos, pname := q.pname, type := q.type.strip }),
    return_type := p.return_type.strip }

/-- A FnDef node whose prototype has been analyzed; the body is stored as
parsed (the analyzer never visits FnDef bodies). -/
structure AFnDef where
  pos : Pos
  fn_proto : AFnProto
  body : Block

/-- A function added to the module by LLVMAddFunction plus the setters and
attributes applied to it.  src_ret is specification-only provenance: the
resolved return-type node of the prototype the function was created from. -/
structure IRFunction where
  fname : String
  ty : LLVMType
  linkage : Linkage
  cc : CallConv
  attrs : List FnAttr
  src_ret : ATypeRef

structure LLVMModule where
  mname : String
  globals : List GlobalVar
  functions : List IRFunction

/-! ## Compiler state. -/

inductive TypeId where
  | userDefined
  | pointerId
  | u8Id
  | i32Id
  | voidId
  | unreachableId
deriving DecidableEq, Repr

/-- struct TypeTableEntry.  pointer_child is an arena index; the two
interning slots are the (lazily filled) unique pointer parents.
The di_type and user_defined_id fields are not modelled. -/
structure TypeTableEntry where
  id : TypeId
  type_ref : LLVMType
  name : String
  pointer_child : Option Nat
  pointer_is_const : Bool
  pointer_const_parent : Option Nat
  pointer_mut_parent : Option Nat

/-- struct ErrorMsg (end coordinates use -1 for unknown). -/
structure ErrorMsg where
  line_start : Int
  column_start : Int
  line_end : Int
  column_end : Int
  msg : String
deriving DecidableEq, Repr

/-- struct FnTableEntry: IR function handle plus prototype node. -/
structure FnTableEntry where
  fn_value : Nat
  proto_node : AFnProto
deriving DecidableEq, Repr

/-- Association-list lookup, modelling HashMap.maybe_get with content keys. -/
def lookupA {β : Type} : List (String × β) → String → Option β
  | [], _ => none
  | (k, v) :: rest, k' => if k = k' then some v else lookupA rest k'

/-- Association-list insert, modelling HashMap.put: overwrite the existing
binding of the key, otherwise append. -/
def putA {β : Type} : List (String × β) → String → β → List (String × β)
  | [], k, v => [(k, v)]
  | (k0, v0) :: rest, k, v =>
      if k0 = k then (k, v) :: rest else (k0, v0) :: putA rest k v

/-- Byte-content keyed lookup for str_table. -/
def lookupB {β : Type} : List (List Nat × β) → List Nat → Option β
  | [], _ => none
  | (k, v) :: rest, k' => if k = k' then some v else lookupB rest k'

def putB {β : Type} : List (List Nat × β) → List Nat → β → List (List Nat × β)
  | [], k, v => [(k, v)]
  | (k0, v0) :: rest, k, v =>
      if k0 = k then (k, v) :: rest else (k0, v0) :: putB rest k v

/-- The mutable parts of struct CodeGen used by analysis and lowering. -/
structure St where
  mod : LLVMModule
  fn_defs : List (String × AFnDef)
  errors : List ErrorMsg
  instrs : List Instr
  fn_table : List (String × FnTableEntry)
  str_table : List (List Nat × Nat)
  type_table : List (String × Nat)
  arena : List TypeTableEntry
  invalid_type_entry : Nat

/-- struct CodeGen fields outside the analysis and lowering state. -/
structure CodeGen where
  st : St
  root : RootNode
  is_static : Bool
  in_file : String
  in_dir : String

def dummyEntry : TypeTableEntry :=
  { id := .userDefined, type_ref := .voidT, name := "",
    pointer_child := none, pointer_is_const := false,
    pointer_const_parent := none, pointer_mut_parent := none }

/-- Dereference a type entity handle. -/
def getEnt (s : St) (i : Nat) : TypeTableEntry := s.arena.getD i dummyEntry

/-- add_node_error (codegen.cpp:90): append an ErrorMsg whose start
coordinates are the given node coordinates and whose end coordinates are -1. -/
def add_node_error (s : St) (pos : Pos) (msg : String) : St :=
  { s with errors := s.errors ++
      [{ line_start := pos.line, column_start := pos.column,
         line_end := -1, column_end := -1, msg := msg }] }

/-- type_is_unreachable (codegen.cpp:117): a syntactic check that the type
node is the primitive named unreachable. -/
def type_is_unreachable : TypeRefNode → Bool
  | .primitive _ n => n = "unreachable"
  | .pointer _ _ _ => false

/-- type_is_unreachable applied to an annotated type node (the C++ applies it
to the same AST node that analysis annotated in place). -/
def type_is_unreachableA : ATypeRef → Bool
  | .primitive _ n _ => n = "unreachable"
  | .pointer _ _ _ _ => false

/-- to_llvm_type (codegen.cpp:100): the IR type handle of the attached
entity. -/
def to_llvm_type (s : St) (t : ATypeRef) : LLVMType :=
  (getEnt s t.entry).type_ref

/-! ## Analysis pass (analyze_node, codegen.cpp:173). -/

/-- The display name of a pointer entity
(buf_appendf at codegen.cpp:161). -/
def ptr_display_name (is_const : Bool) (childName : String) : String :=
  "*" ++ (if is_const then "const" else "mut") ++ " " ++ childName

/-- The freshly allocated pointer entity (codegen.cpp:158-163). -/
def ptr_entity (centry : Nat) (childEnt : TypeTableEntry)
    (is_const : Bool) : TypeTableEntry :=
  { id := .pointerId,
    type_ref := .ptr childEnt.type_ref,
    name := ptr_display_name is_const childEnt.name,
    pointer_child := some centry,
    pointer_is_const := is_const,
    pointer_const_parent := none,
    pointer_mut_parent := none }

/-- Store the new pointer entity in the appropriate interning slot of the
child entity (codegen.cpp:151-153 and 166). -/
def set_parent_slot (childEnt : TypeTableEntry) (is_const : Bool)
    (v : Nat) : TypeTableEntry :=
  if is_const then { childEnt with pointer_const_parent := some v }
  else { childEnt with pointer_mut_parent := some v }

/-- The allocation step of the pointer case of resolve_type_and_recurse
(codegen.cpp:157-167): build the pointer entity over the child entity at
arena index centry, register it in the type table under its display name,
and store it in the appropriate interning slot of the child.  Returns the
new entity handle. -/
def create_pointer_entry (s2 : St) (centry : Nat) (childEnt : TypeTableEntry)
    (is_const : Bool) : St × Nat :=
  let newIdx := s2.arena.length
  ({ s2 with
      arena := (s2.arena ++ [ptr_entity centry childEnt is_const]).set centry
        (set_parent_slot childEnt is_const newIdx),
      type_table := putA s2.type_table
        (ptr_display_name is_const childEnt.name) newIdx },
   newIdx)

/-- resolve_type_and_recurse (codegen.cpp:125).  Returns the updated state
and the node annotated with the resolved entity at every level. -/
def resolve_type_and_recurse (s : St) : TypeRefNode → St × ATypeRef
  | .primitive pos name =>
      match lookupA s.type_table name with
      | some e => (s, .primitive pos name e)
      | none =>
          (add_node_error s pos ("invalid type name: \x27" ++ name ++ "\x27"),
           .primitive pos name s.invalid_type_entry)
  | .pointer pos is_const child =>
      let (s1, achild) := resolve_type_and_recurse s child
      let childEnt := getEnt s1 achild.entry
      let s2 := if childEnt.id = .unreachableId then
          add_node_error s1 pos "pointer to unreachable not allowed" else s1
      let parentSlot := if is_const then childEnt.pointer_const_parent
          else childEnt.pointer_mut_parent
      match parentSlot with
      | some p => (s2, .pointer pos is_const achild p)
      | none =>
          let (s3, newIdx) := create_pointer_entry s2 achild.entry childEnt
              is_const
          (s3, .pointer pos is_const achild newIdx)

/-- analyze_node on NodeTypeParamDecl followed by NodeTypeType. -/
def analyze_param_decl (s : St) (p : ParamDecl) : St × AParamDecl :=
  let (s1, at1) := resolve_type_and_recurse s p.type
  (s1, { pos := p.pos, pname := p.pname, type := at1 })

def analyze_param_decls (s : St) : List ParamDecl → St × List AParamDecl
  | [] => (s, [])
  | p :: rest =>
      let (s1, ap) := analyze_param_decl s p
      let (s2, aps) := analyze_param_decls s1 rest
      (s2, ap :: aps)

/-- analyze_node on NodeTypeFnProto: visit each parameter, then the return
type. -/
def analyze_fn_proto (s : St) (p : FnProto) : St × AFnProto :=
  let (s1, aps) := analyze_param_decls s p.params
  let (s2, aret) := resolve_type_and_recurse s1 p.return_type
  (s2, { pos := p.pos, name := p.name, params := aps, return_type := aret })

/-- The LLVMAddFunction call: appends a function record, returning its
handle. -/
def addFunction (s : St) (f : IRFunction) : St × Nat :=
  ({ s with mod := { s.mod with functions := s.mod.functions ++ [f] } },
   s.mod.functions.length)

/-- One iteration of the NodeTypeExternBlock loop (codegen.cpp:182): analyze
the fn_decl (which resolves its prototype), build the IR function type from
the resolved parameter and return types, add the function with external
linkage and C calling convention, attach the no-return attribute when the
return type node is the unreachable primitive, and record the FnTableEntry. -/
def analyze_extern_fn_decl (s : St) (d : FnDecl) : St :=
  let (s1, aproto) := analyze_fn_proto s d.fn_proto
  let fn_param_values := aproto.params.map (fun p => to_llvm_type s1 p.type)
  let return_type := to_llvm_type s1 aproto.return_type
  let fn_type := LLVMType.fnT return_type fn_param_values
  let attrs := if type_is_unreachable d.fn_proto.return_type then
      [FnAttr.noreturn] else []
  let f : IRFunction :=
    { fname := d.fn_proto.name, ty := fn_type,
      linkage := .externalLinkage, cc := .ccall, attrs := attrs,
      src_ret := aproto.return_type }
  let (s2, fid) := addFunction s1 f
  let fn_table_entry : FnTableEntry := { fn_value := fid, proto_node := aproto }
  { s2 with fn_table := putA s2.fn_table d.fn_proto.name fn_table_entry }

def analyze_extern_fn_decls (s : St) : List FnDecl → St
  | [] => s
  | d :: rest => analyze_extern_fn_decls (analyze_extern_fn_decl s d) rest

/-- analyze_node on NodeTypeFnDef (codegen.cpp:215): on a duplicate name
record a redefinition error and do nothing else; otherwise register the node
in fn_defs and analyze its prototype only (the body is not visited).
The C++ stores the node pointer first and annotates the prototype in place;
equivalently the annotated prototype is computed and the annotated node
stored (prototype analysis never reads fn_defs). -/
def analyze_fn_def (s : St) (d : FnDef) : St :=
  match lookupA s.fn_defs d.fn_proto.name with
  | some _ =>
      add_node_error s d.pos
        ("redefinition of \x27" ++ d.fn_proto.name ++ "\x27")
  | none =>
      let (s1, aproto) := analyze_fn_proto s d.fn_proto
      let adef : AFnDef := { pos := d.pos, fn_proto := aproto, body := d.body }
      { s1 with fn_defs := putA s1.fn_defs d.fn_proto.name adef }

/-- analyze_node on one top-level declaration. -/
def analyze_top_level (s : St) : TopLevelDecl → St
  | .fnDef d => analyze_fn_def s d
  | .externBlock b => analyze_extern_fn_decls s b.fn_decls

def analyze_top_levels (s : St) : List TopLevelDecl → St
  | [] => s
  | d :: rest => analyze_top_levels (analyze_top_level s d) rest

/-- analyze_node on NodeTypeRoot: visit each top-level declaration in
order. -/
def analyze_root (s : St) (r : RootNode) : St :=
  analyze_top_levels s r.top_level_decls

/-- add_types (codegen.cpp:293): install the four primitive entities, in
order u8, i32, void, unreachable; mark void as the invalid-type sentinel;
unreachable uses LLVMVoidType as its IR type. -/
def add_types (s : St) : St :=
  let u8Ent : TypeTableEntry :=
    { id := .u8Id, type_ref := .int 8, name := "u8", pointer_child := none,
      pointer_is_const := false, pointer_const_parent := none,
      pointer_mut_parent := none }
  let i32Ent : TypeTableEntry :=
    { id := .i32Id, type_ref := .int 32, name := "i32", pointer_child := none,
      pointer_is_const := false, pointer_const_parent := none,
      pointer_mut_parent := none }
  let voidEnt : TypeTableEntry :=
    { id := .voidId, type_ref := .voidT, name := "void", pointer_child := none,
      pointer_is_const := false, pointer_const_parent := none,
      pointer_mut_parent := none }
  let unreachableEnt : TypeTableEntry :=
    { id := .unreachableId, type_ref := .voidT, name := "unreachable",
      pointer_child := none, pointer_is_const := false,
      pointer_const_parent := none, pointer_mut_parent := none }
  let u8Idx := s.arena.length
  let s1 := { s with arena := s.arena ++ [u8Ent],
                     type_table := putA s.type_table "u8" u8Idx }
  let i32Idx := s1.arena.length
  let s2 := { s1 with arena := s1.arena ++ [i32Ent],
                      type_table := putA s1.type_table "i32" i32Idx }
  let voidIdx := s2.arena.length
  let s3 := { s2 with arena := s2.arena ++ [voidEnt],
                      type_table := putA s2.type_table "void" voidIdx,
                      invalid_type_entry := voidIdx }
  let unreachableIdx := s3.arena.length
  { s3 with arena := s3.arena ++ [unreachableEnt],
            type_table := putA s3.type_table "unreachable" unreachableIdx }

/-- The empty state installed by create_codegen (allocate zero-initializes;
the null invalid_type_entry pointer is modelled as index 0 and is overwritten
by add_types before any use). -/
def initSt : St :=
  { mod := { mname := "", globals := [], functions := [] },
    fn_defs := [], errors := [], instrs := [], fn_table := [],
    str_table := [], type_table := [], arena := [],
    invalid_type_entry := 0 }

/-- os_path_split: split a path into directory and file at the last slash.
Modelled from the spec: the OS layer itself is outside the core; nothing in
the core reads the two components except the (unmodelled) debug-info pass. -/
def os_path_split (p : String) : String × String :=
  match (p.data.reverse.span (fun c => c ≠ '/')).2 with
  | [] => ("", p)
  | _ :: dirRev => (String.mk dirRev.reverse, String.mk (p.data.reverse.takeWhile (fun c => c ≠ '/')).reverse)

/-- create_codegen (codegen.cpp:77). -/
def create_codegen (root : RootNode) (is_static : Bool) (in_full_path : String) :
    CodeGen :=
  { st := initSt, root := root, is_static := is_static,
    in_file := (os_path_split in_full_path).2,
    in_dir := (os_path_split in_full_path).1 }

/-- semantic_analyze (codegen.cpp:334): create the module named ZigModule,
seed the primitive types, then run pass 1 on the root.  Target-machine and
debug-builder setup is not modelled. -/
def semantic_analyze (g : CodeGen) : CodeGen :=
  let zigMod : LLVMModule :=
    { mname := "ZigModule", globals := [], functions := [] }
  let s0 := { g.st with mod := zigMod }
  { g with st := analyze_root (add_types s0) g.root }

/-! ## Lowering pass (code_gen, codegen.cpp:503). -/

/-- Append an instruction through the builder, returning its handle. -/
def emit (s : St) (i : Instr) : St × Nat :=
  ({ s with instrs := s.instrs ++ [i] }, s.instrs.length)

/-- find_or_create_string (codegen.cpp:416). -/
def find_or_create_string (s : St) (str : List Nat) : St × Nat :=
  match lookupB s.str_table str with
  | some g => (s, g)
  | none =>
      let text := llvmConstString str false
      let gid := s.mod.globals.length
      let gv : GlobalVar :=
        { ty := constTypeOf text, gname := "",
          linkage := .privateLinkage, initializer := some text,
          is_constant := true, unnamed_addr := true }
      ({ s with
          mod := { s.mod with globals := s.mod.globals ++ [gv] },
          str_table := putB s.str_table str gid }, gid)

/-- LLVMConstIntOfStringAndSize with radix 10 into a 32-bit type: parse the
decimal digits, wrapping modulo 2^32. -/
def parse_decimal (digits : String) : Nat :=
  digits.data.foldl (fun a c => a * 10 + (c.toNat - 48)) 0

mutual
/-- gen_expr (codegen.cpp:432). -/
def gen_expr (s : St) : Expr → St × Val
  | .number _ digits =>
      (s, .constVal (.intConst (.int 32)
        (Int.ofNat (parse_decimal digits % 4294967296))))
  | .stringLit _ bytes =>
      let (s1, gid) := find_or_create_string s bytes
      let indices := [LLVMConst.intConst (.int 32) 0,
                      LLVMConst.intConst (.int 32) 0]
      let (s2, iid) := emit s1 (.gep (.globalRef gid) indices true)
      (s2, .instrRef iid)
  | .fnCallE _ c => gen_fn_call s c
  | .unreachableE _ =>
      let (s1, iid) := emit s .unreachableInstr
      (s1, .instrRef iid)

/-- gen_fn_call (codegen.cpp:378). -/
def gen_fn_call (s : St) : FnCallNode → St × Val
  | .mk pos name args =>
      match lookupA s.fn_table name with
      | none =>
          (add_node_error s pos
             ("undefined function: \x27" ++ name ++ "\x27"),
           .constVal (.nullConst (.int 32)))
      | some fn_table_entry =>
          let expected_param_count := fn_table_entry.proto_node.params.length
          let actual_param_count := args.length
          if expected_param_count ≠ actual_param_count then
            (add_node_error s pos
               ("wrong number of arguments. Expected "
                 ++ toString expected_param_count ++ ", got "
                 ++ toString actual_param_count ++ "."),
             .constVal (.nullConst (.int 32)))
          else
            let (s1, param_values) := gen_expr_list s args
            let (s2, callId) :=
              emit s1 (.call fn_table_entry.fn_value param_values)
            if type_is_unreachableA fn_table_entry.proto_node.return_type then
              let (s3, uid) := emit s2 .unreachableInstr
              (s3, .instrRef uid)
            else
              (s2, .instrRef callId)

/-- The argument-lowering loop of gen_fn_call (codegen.cpp:400). -/
def gen_expr_list (s : St) : List Expr → St × List Val
  | [] => (s, [])
  | e :: rest =>
      let (s1, v) := gen_expr s e
      let (s2, vs) := gen_expr_list s1 rest
      (s2, v :: vs)
end

/-- One statement of gen_block (codegen.cpp:464). -/
def gen_statement (s : St) : Stmt → St
  | .returnStmt _ e =>
      let (s1, v) := gen_expr s e
      (emit s1 (.ret v)).1
  | .exprStmt _ e => (gen_expr s e).1

def gen_statements (s : St) : List Stmt → St
  | [] => s
  | st :: rest => gen_statements (gen_statement s st) rest

/-- gen_block (codegen.cpp:464). -/
def gen_block (s : St) (b : Block) : St :=
  gen_statements s b.statements

/-- One iteration of the fn_defs loop in code_gen (codegen.cpp:512):
recompute the IR function type from the resolved prototype, add the function
(external linkage), attach no-return when the return type node is the
unreachable primitive and no-unwind unconditionally, then lower the body.
Debug metadata creation and the entry basic block object are not modelled;
instruction order is the builder order. -/
def gen_fn_def (s : St) (d : AFnDef) : St :=
  let ret_type := to_llvm_type s d.fn_proto.return_type
  let param_types := d.fn_proto.params.map (fun p => to_llvm_type s p.type)
  let function_type := LLVMType.fnT ret_type param_types
  let attrs :=
    (if type_is_unreachableA d.fn_proto.return_type then
        [FnAttr.noreturn] else []) ++ [FnAttr.nounwind]
  let f : IRFunction :=
    { fname := d.fn_proto.name, ty := function_type,
      linkage := .externalLinkage, cc := .ccall, attrs := attrs,
      src_ret := d.fn_proto.return_type }
  let (s1, _) := addFunction s f
  gen_block s1 d.body

def gen_fn_defs (s : St) : List (String × AFnDef) → St
  | [] => s
  | (_, d) :: rest => gen_fn_defs (gen_fn_def s d) rest

/-- code_gen (codegen.cpp:503): walk fn_defs in iteration order.  Module
dump and verification perform no state change that is modelled. -/
def code_gen (g : CodeGen) : CodeGen :=
  { g with st := gen_fn_defs g.st g.st.fn_defs }

/-- The full pipeline a caller runs: create_codegen, semantic_analyze,
code_gen. -/
def run_pipeline (r : RootNode) (is_static : Bool) (path : String) : St :=
  (code_gen (semantic_analyze (create_codegen r is_static path))).st

/-- Resolve a list of type reference nodes in sequence.  Used to state
properties of all TypeRef nodes resolved during one analysis run (the
analyzer resolves each reachable TypeRef node exactly once, in traversal
order; no other analyzer action touches the type arena or registry). -/
def resolve_type_list (s : St) : List TypeRefNode → St × List ATypeRef
  | [] => (s, [])
  | t :: ts =>
      let (s1, at1) := resolve_type_and_recurse s t
      let (s2, ats) := resolve_type_list s1 ts
      (s2, at1 :: ats)

/-! ## Specification-side definitions. -/

/-- The arena index of the unreachable type entity: add_types installs the
four primitive entities starting from an empty arena, in order u8 (0),
i32 (1), void (2), unreachable (3). -/
def unreachableEntity : Nat := 3

/-- The arena index of the void entity, which add_types also marks as the
invalid-type sentinel. -/
def voidEntity : Nat := 2

/-- Read one of the two pointer-interning slots of an entity. -/
def slotGet (ent : TypeTableEntry) (k : Bool) : Option Nat :=
  if k then ent.pointer_const_parent else ent.pointer_mut_parent

/-- Pointer entities reference a child allocated strictly earlier. -/
def WFA (a : List TypeTableEntry) : Prop :=
  ∀ (i : Nat) (ent : TypeTableEntry), a[i]? = some ent → ent.id = .pointerId →
    ∃ c, ent.pointer_child = some c ∧ c < i

/-- The structural type denoted by an arena entity, computed with explicit
fuel (the recursion descends to strictly smaller indices, so arena length
is always enough fuel). -/
def denoteFuel (a : List TypeTableEntry) : Nat → Nat → Ty
  | 0, _ => .prim ""
  | fuel + 1, e =>
      match a[e]? with
      | none => .prim ""
      | some ent =>
          if ent.id = .pointerId then
            match ent.pointer_child with
            | some c => .ptr ent.pointer_is_const (denoteFuel a fuel c)
            | none => .prim ""
          else .prim ent.name

/-- The structural type denoted by an arena entity. -/
def denoteA (a : List TypeTableEntry) (e : Nat) : Ty :=
  denoteFuel a a.length e

/-- Equality of all entity fields except the two interning slots (the only
fields the source ever mutates after allocation). -/
def coreEq (x y : TypeTableEntry) : Prop :=
  x.id = y.id ∧ x.type_ref = y.type_ref ∧ x.name = y.name ∧
  x.pointer_child = y.pointer_child ∧ x.pointer_is_const = y.pointer_is_const

/-- Arena evolution during analysis: entities are only appended, and
existing entities change only in their interning slots. -/
def CoreExt (a a' : List TypeTableEntry) : Prop :=
  a.length ≤ a'.length ∧
  ∀ (i : Nat) (x : TypeTableEntry), a[i]? = some x →
    ∃ y, a'[i]? = some y ∧ coreEq x y

/-- State invariant of the type registry, established by add_types and
preserved by analysis. -/
structure Good (s : St) : Prop where
  len4 : 4 ≤ s.arena.length
  seed0 : ∃ ent, s.arena[0]? = some ent ∧ ent.id = .u8Id ∧ ent.name = "u8"
  seed1 : ∃ ent, s.arena[1]? = some ent ∧ ent.id = .i32Id ∧ ent.name = "i32"
  seed2 : ∃ ent, s.arena[2]? = some ent ∧ ent.id = .voidId ∧ ent.name = "void"
  seed3 : ∃ ent, s.arena[3]? = some ent ∧ ent.id = .unreachableId ∧
    ent.name = "unreachable"
  only_ptrs : ∀ (i : Nat) (ent : TypeTableEntry), s.arena[i]? = some ent →
    4 ≤ i → ent.id = .pointerId
  ptr_back : ∀ (i : Nat) (ent : TypeTableEntry), s.arena[i]? = some ent →
    ent.id = .pointerId →
    ∃ c centr, ent.pointer_child = some c ∧ c < i ∧
      s.arena[c]? = some centr ∧ slotGet centr ent.pointer_is_const = some i
  slot_ok : ∀ (i : Nat) (ent : TypeTableEntry) (k : Bool) (p : Nat),
    s.arena[i]? = some ent → slotGet ent k = some p →
    ∃ pe, s.arena[p]? = some pe ∧ pe.id = .pointerId ∧
      pe.pointer_child = some i ∧ pe.pointer_is_const = k
  tbl_range : ∀ n e, lookupA s.type_table n = some e → e < s.arena.length
  tbl_u8 : lookupA s.type_table "u8" = some 0
  tbl_i32 : lookupA s.type_table "i32" = some 1
  tbl_void : lookupA s.type_table "void" = some 2
  tbl_unreachable : lookupA s.type_table "unreachable" = some 3
  tbl_un_only : ∀ n, lookupA s.type_table n = some 3 → n = "unreachable"
  inval : s.invalid_type_entry = 2

/-- How the type registry may evolve across one analysis step. -/
structure Extends (s s' : St) : Prop where
  core : CoreExt s.arena s'.arena
  inval : s'.invalid_type_entry = s.invalid_type_entry

/-- An error message with unknown end coordinates. -/
def EndNeg (e : ErrorMsg) : Prop := e.line_end = -1 ∧ e.column_end = -1

/-- Errors are only ever appended, and only with unknown end coordinates. -/
def ErrsAppend (s s' : St) : Prop :=
  ∃ new, s'.errors = s.errors ++ new ∧ ∀ e ∈ new, EndNeg e

/-- Every subnode of an annotated type reference has an in-range entity
denoting exactly its own structural type. -/
def NodesOk (s : St) (t : ATypeRef) : Prop :=
  ∀ u ∈ t.subnodes, u.entry < s.arena.length ∧ denoteA s.arena u.entry = u.toTy

/-- Names of the four registry primitives. -/
def seeded_name (n : String) : Bool :=
  n = "u8" || n = "i32" || n = "void" || n = "unreachable"

/-- Every primitive leaf of the type reference is a registry primitive name,
that is, an identifier the parser could produce that also resolves. -/
def seeded_leaves : TypeRefNode → Bool
  | .primitive _ n => seeded_name n
  | .pointer _ _ c => seeded_leaves c

/-- Fields of the state that resolve_type_and_recurse and analyze_fn_proto
never touch. -/
def AnaFrame (s s' : St) : Prop :=
  s'.mod = s.mod ∧ s'.fn_defs = s.fn_defs ∧ s'.fn_table = s.fn_table ∧
  s'.str_table = s.str_table ∧ s'.instrs = s.instrs

/-- Fields of the state the expression-lowering functions never touch,
plus the error-append discipline. -/
def GenFrame (s s' : St) : Prop :=
  s'.mod.functions = s.mod.functions ∧ s'.fn_defs = s.fn_defs ∧
  s'.fn_table = s.fn_table ∧ s'.type_table = s.type_table ∧
  s'.arena = s.arena ∧ s'.invalid_type_entry = s.invalid_type_entry ∧
  ErrsAppend s s'

/-- Every function in the module carries the no-return attribute exactly
when its prototype return type resolved to the unreachable entity. -/
def FnsOk (s : St) : Prop :=
  ∀ f ∈ s.mod.functions,
    (FnAttr.noreturn ∈ f.attrs ↔ f.src_ret.entry = unreachableEntity)

/-- Every registered function definition has a prototype whose return type
node is the unreachable primitive exactly when it resolved to the
unreachable entity. -/
def DefsOk (s : St) : Prop :=
  ∀ p ∈ s.fn_defs,
    (type_is_unreachableA p.2.fn_proto.return_type = true ↔
      p.2.fn_proto.return_type.entry = unreachableEntity)

/-- Every recorded error has unknown end coordinates. -/
def ErrsOk (s : St) : Prop := ∀ e ∈ s.errors, EndNeg e

/-- Combined analyzer invariant. -/
def AInv (s : St) : Prop := Good s ∧ FnsOk s ∧ DefsOk s ∧ ErrsOk s

/-- All annotated type reference nodes produced by resolving a list of
type references from the freshly seeded registry. -/
def all_resolved_subnodes (ts : List TypeRefNode) : List ATypeRef :=
  ((resolve_type_list (add_types initSt) ts).2.map ATypeRef.subnodes).flatten

/-- Example program of spec scenario S6: an extern declaration of a
function returning unreachable. -/
def example_extern_unreachable : RootNode :=
  { pos := ⟨0, 0⟩,
    top_level_decls := [.externBlock
      { pos := ⟨1, 1⟩,
        fn_decls := [
          { pos := ⟨1, 9⟩,
            fn_proto :=
              { pos := ⟨1, 9⟩, name := "exit", params := [],
                return_type := .primitive ⟨1, 20⟩ "unreachable" } }] }] }

/-- Example program of spec scenario S4: two definitions of the same
function name. -/
def example_redefinition : RootNode :=
  { pos := ⟨0, 0⟩,
    top_level_decls := [
      .fnDef
        { pos := ⟨1, 1⟩,
          fn_proto :=
            { pos := ⟨1, 1⟩, name := "g", params := [],
              return_type := .primitive ⟨1, 12⟩ "void" },
          body := { pos := ⟨1, 20⟩, statements := [] } },
      .fnDef
        { pos := ⟨2, 1⟩,
          fn_proto :=
            { pos := ⟨2, 1⟩, name := "g", params := [],
              return_type := .primitive ⟨2, 12⟩ "void" },
          body := { pos := ⟨2, 20⟩, statements := [] } }] }

/-- Example analyzer state: the seeded registry with one registered
definition of g, as after the first definition of spec scenario S4. -/
def example_dup_state : St :=
  { add_types initSt with fn_defs := [("g",
      { pos := ⟨1, 1⟩,
        fn_proto :=
          { pos := ⟨1, 1⟩, name := "g", params := [],
            return_type := .primitive ⟨1, 12⟩ "void" 2 },
        body := { pos := ⟨1, 20⟩, statements := [] } })] }

/-- A second definition of g (spec scenario S4). -/
def example_dup_def : FnDef :=
  { pos := ⟨2, 1⟩,
    fn_proto :=
      { pos := ⟨2, 1⟩, name := "g", params := [],
        return_type := .primitive ⟨2, 12⟩ "void" },
    body := { pos := ⟨2, 20⟩, statements := [] } }

/-- Example lowering state: the seeded registry with one extern function
exit returning unreachable in fn_table, as after analyzing spec scenario
S6. -/
def example_call_state : St :=
  { add_types initSt with fn_table := [("exit",
      { fn_value := 0,
        proto_node :=
          { pos := ⟨1, 9⟩, name := "exit", params := [],
            return_type := .primitive ⟨1, 20⟩ "unreachable" 3 } })] }

/-! ## Theorems: association lists. -/

theorem lookupA_putA {β : Type} (m : List (String × β)) (k : String) (v : β)
    (n : String) :
    lookupA (putA m k v) n = if k = n then some v else lookupA m n := by
  induction m with
  | nil => simp [putA, lookupA]
  | cons hd tl ih =>
      obtain ⟨k0, v0⟩ := hd
      simp only [putA]
      by_cases h0 : k0 = k
      · subst h0
        simp only [if_pos rfl, lookupA]
        by_cases h1 : k0 = n
        · simp [h1]
        · simp [h1]
      · simp only [if_neg h0, lookupA, ih]
        by_cases h1 : k0 = n
        · subst h1
          have hkn : ¬ (k = k0) := fun hk => h0 hk.symm
          simp [hkn]
        · rw [if_neg h1, if_neg h1]

theorem mem_putA {β : Type} (m : List (String × β)) (k : String) (v : β)
    (p : String × β) (hp : p ∈ putA m k v) : p = (k, v) ∨ p ∈ m := by
  induction m with
  | nil => simpa [putA] using hp
  | cons hd tl ih =>
      obtain ⟨k0, v0⟩ := hd
      by_cases h0 : k0 = k
      · subst h0
        simp only [putA, if_pos rfl] at hp
        rcases List.mem_cons.mp hp with h | h
        · exact Or.inl h
        · exact Or.inr (List.mem_cons_of_mem _ h)
      · simp only [putA, if_neg h0] at hp
        rcases List.mem_cons.mp hp with h | h
        · exact Or.inr (by simp [h])
        · rcases ih h with h1 | h1
          · exact Or.inl h1
          · exact Or.inr (List.mem_cons_of_mem _ h1)

theorem lookupB_putB {β : Type} (m : List (List Nat × β)) (k : List Nat)
    (v : β) (n : List Nat) :
    lookupB (putB m k v) n = if k = n then some v else lookupB m n := by
  induction m with
  | nil => simp [putB, lookupB]
  | cons hd tl ih =>
      obtain ⟨k0, v0⟩ := hd
      simp only [putB]
      by_cases h0 : k0 = k
      · subst h0
        simp only [if_pos rfl, lookupB]
        by_cases h1 : k0 = n
        · simp [h1]
        · simp [h1]
      · simp only [if_neg h0, lookupB, ih]
        by_cases h1 : k0 = n
        · subst h1
          have hkn : ¬ (k = k0) := fun hk => h0 hk.symm
          simp [hkn]
        · rw [if_neg h1, if_neg h1]

/-! ## Theorems: entity denotation. -/

theorem denoteFuel_irrel (a : List TypeTableEntry) (wfa : WFA a) :
    ∀ e f1 f2, e < f1 → e < f2 → denoteFuel a f1 e = denoteFuel a f2 e := by
  intro e
  induction e using Nat.strong_induction_on with
  | _ e ih =>
    intro f1 f2 h1 h2
    obtain ⟨g1, rfl⟩ : ∃ g, f1 = g + 1 := ⟨f1 - 1, by omega⟩
    obtain ⟨g2, rfl⟩ : ∃ g, f2 = g + 1 := ⟨f2 - 1, by omega⟩
    cases hget : a[e]? with
    | none => simp only [denoteFuel, hget]
    | some ent =>
      simp only [denoteFuel, hget]
      by_cases hid : ent.id = .pointerId
      · rw [if_pos hid, if_pos hid]
        cases hpc : ent.pointer_child with
        | none => rfl
        | some c =>
            obtain ⟨c', hc', hclt⟩ := wfa e ent hget hid
            rw [hpc] at hc'
            obtain rfl : c = c' := by injection hc'
            have := ih c hclt g1 g2 (by omega) (by omega)
            simp [this]
      · rw [if_neg hid, if_neg hid]

theorem denoteA_nonptr (a : List TypeTableEntry) (e : Nat)
    (ent : TypeTableEntry) (hget : a[e]? = some ent)
    (hid : ent.id ≠ .pointerId) : denoteA a e = .prim ent.name := by
  have he : e < a.length := (List.getElem?_eq_some.mp hget).1
  obtain ⟨g, hg⟩ : ∃ g, a.length = g + 1 := ⟨a.length - 1, by omega⟩
  rw [denoteA, hg]
  simp only [denoteFuel, hget]
  rw [if_neg hid]

theorem denoteA_ptr (a : List TypeTableEntry) (wfa : WFA a) (e : Nat)
    (ent : TypeTableEntry) (c : Nat) (hget : a[e]? = some ent)
    (hid : ent.id = .pointerId) (hc : ent.pointer_child = some c)
    (hclt : c < e) :
    denoteA a e = .ptr ent.pointer_is_const (denoteA a c) := by
  have he : e < a.length := (List.getElem?_eq_some.mp hget).1
  obtain ⟨g, hg⟩ : ∃ g, a.length = g + 1 := ⟨a.length - 1, by omega⟩
  rw [denoteA, denoteA, hg]
  rw [show denoteFuel a (g + 1) c = denoteFuel a g c from
    denoteFuel_irrel a wfa c (g + 1) g (by omega) (by omega)]
  simp only [denoteFuel, hget]
  rw [if_pos hid, hc]

theorem denote_stable (a a' : List TypeTableEntry) (hext : CoreExt a a')
    (wfa : WFA a) (wfa' : WFA a') :
    ∀ e, e < a.length → denoteA a' e = denoteA a e := by
  intro e
  induction e using Nat.strong_induction_on with
  | _ e ih =>
    intro he
    obtain ⟨x, hx⟩ : ∃ x, a[e]? = some x := ⟨a[e], List.getElem?_eq_getElem he⟩
    obtain ⟨y, hy, hcore⟩ := hext.2 e _ hx
    by_cases hid : x.id = .pointerId
    · obtain ⟨c, hc, hclt⟩ := wfa e _ hx hid
      have hyid : y.id = .pointerId := hcore.1 ▸ hid
      have hyc : y.pointer_child = some c := hcore.2.2.2.1 ▸ hc
      rw [denoteA_ptr a wfa e _ c hx hid hc hclt,
          denoteA_ptr a' wfa' e y c hy hyid hyc hclt,
          hcore.2.2.2.2, ih c hclt (by omega)]
    · have hyid : y.id ≠ .pointerId := hcore.1 ▸ hid
      rw [denoteA_nonptr a e _ hx hid, denoteA_nonptr a' e y hy hyid,
          hcore.2.2.1]

theorem wfa_of_good (s : St) (h : Good s) : WFA s.arena := by
  intro i ent hget hid
  obtain ⟨c, centr, hc, hlt, _, _⟩ := h.ptr_back i ent hget hid
  exact ⟨c, hc, hlt⟩

/-! ## Theorems: basic relation combinators. -/

theorem coreEq_refl (x : TypeTableEntry) : coreEq x x :=
  ⟨rfl, rfl, rfl, rfl, rfl⟩

theorem coreEq_trans {x y z : TypeTableEntry} (h1 : coreEq x y)
    (h2 : coreEq y z) : coreEq x z :=
  ⟨h1.1.trans h2.1, h1.2.1.trans h2.2.1, h1.2.2.1.trans h2.2.2.1,
   h1.2.2.2.1.trans h2.2.2.2.1, h1.2.2.2.2.trans h2.2.2.2.2⟩

theorem coreExt_refl (a : List TypeTableEntry) : CoreExt a a :=
  ⟨le_refl _, fun _ x h => ⟨x, h, coreEq_refl x⟩⟩

theorem coreExt_trans {a b c : List TypeTableEntry} (h1 : CoreExt a b)
    (h2 : CoreExt b c) : CoreExt a c := by
  refine ⟨h1.1.trans h2.1, fun i x hx => ?_⟩
  obtain ⟨y, hy, hxy⟩ := h1.2 i x hx
  obtain ⟨z, hz, hyz⟩ := h2.2 i y hy
  exact ⟨z, hz, coreEq_trans hxy hyz⟩

theorem extends_refl (s : St) : Extends s s := ⟨coreExt_refl _, rfl⟩

theorem extends_trans {s1 s2 s3 : St} (h1 : Extends s1 s2)
    (h2 : Extends s2 s3) : Extends s1 s3 :=
  ⟨coreExt_trans h1.core h2.core, h2.inval.trans h1.inval⟩

theorem errsAppend_refl (s : St) : ErrsAppend s s :=
  ⟨[], by simp, by simp⟩

theorem errsAppend_trans {s1 s2 s3 : St} (h1 : ErrsAppend s1 s2)
    (h2 : ErrsAppend s2 s3) : ErrsAppend s1 s3 := by
  obtain ⟨n1, he1, hn1⟩ := h1
  obtain ⟨n2, he2, hn2⟩ := h2
  refine ⟨n1 ++ n2, by simp [he2, he1], fun e he => ?_⟩
  rcases List.mem_append.mp he with h | h
  · exact hn1 e h
  · exact hn2 e h

theorem errsAppend_one (s : St) (pos : Pos) (m : String) :
    ErrsAppend s (add_node_error s pos m) := by
  refine ⟨[⟨pos.line, pos.column, -1, -1, m⟩], rfl, fun e he => ?_⟩
  simp only [List.mem_singleton] at he
  subst he
  exact ⟨rfl, rfl⟩

theorem anaFrame_refl (s : St) : AnaFrame s s := ⟨rfl, rfl, rfl, rfl, rfl⟩

theorem anaFrame_trans {s1 s2 s3 : St} (h1 : AnaFrame s1 s2)
    (h2 : AnaFrame s2 s3) : AnaFrame s1 s3 :=
  ⟨h2.1.trans h1.1, h2.2.1.trans h1.2.1, h2.2.2.1.trans h1.2.2.1,
   h2.2.2.2.1.trans h1.2.2.2.1, h2.2.2.2.2.trans h1.2.2.2.2⟩

theorem good_add_node_error (s : St) (pos : Pos) (m : String) (h : Good s) :
    Good (add_node_error s pos m) := by
  obtain ⟨l4, s0, s1, s2, s3, op, pb, so, tr, t0, t1, t2, t3, tu, iv⟩ := h
  exact ⟨l4, s0, s1, s2, s3, op, pb, so, tr, t0, t1, t2, t3, tu, iv⟩

/-! ## Theorems: the seeded registry satisfies the invariant. -/

theorem good_add_types (s : St) (ha : s.arena = []) (ht : s.type_table = []) :
    Good (add_types s) := by
  obtain ⟨mod, fd, er, ins, ft, stt, tt, ar, inv⟩ := s
  dsimp only at ha ht
  subst ha ht
  refine ⟨?_, ⟨_, rfl, rfl, rfl⟩, ⟨_, rfl, rfl, rfl⟩, ⟨_, rfl, rfl, rfl⟩,
    ⟨_, rfl, rfl, rfl⟩, ?_, ?_, ?_, ?_, rfl, rfl, rfl, rfl, ?_, rfl⟩
  · exact Nat.le_refl 4
  · intro i ent h h4
    have h5 : i < 4 := by simpa [add_types] using (List.getElem?_eq_some.mp h).1
    omega
  · intro i ent h hid
    have h5 : i < 4 := by simpa [add_types] using (List.getElem?_eq_some.mp h).1
    interval_cases i <;> simp [add_types] at h <;> subst h <;>
      simp [add_types] at hid
  · intro i ent k p h hslot
    have h5 : i < 4 := by simpa [add_types] using (List.getElem?_eq_some.mp h).1
    interval_cases i <;> simp [add_types] at h <;> subst h <;>
      cases k <;> simp [slotGet] at hslot
  · intro n e h
    simp only [add_types, lookupA, putA] at h
    split at h
    · injection h with h; subst h; simp [add_types]
    · split at h
      · injection h with h; subst h; simp [add_types]
      · split at h
        · injection h with h; subst h; simp [add_types]
        · split at h
          · injection h with h; subst h; simp [add_types]
          · exact absurd h (by simp)
  · intro n h
    simp only [add_types, lookupA, putA] at h
    split at h
    · injection h with h; simp at h
    · split at h
      · injection h with h; simp at h
      · split at h
        · injection h with h; simp at h
        · split at h
          · next hcond => exact hcond.symm
          · exact absurd h (by simp)

/-! ## Theorems: denotation determines identity. -/

theorem denote_seed (s : St) (h : Good s) :
    denoteA s.arena 0 = .prim "u8" ∧ denoteA s.arena 1 = .prim "i32" ∧
    denoteA s.arena 2 = .prim "void" ∧
    denoteA s.arena 3 = .prim "unreachable" := by
  obtain ⟨x0, g0, i0, n0⟩ := h.seed0
  obtain ⟨x1, g1, i1, n1⟩ := h.seed1
  obtain ⟨x2, g2, i2, n2⟩ := h.seed2
  obtain ⟨x3, g3, i3, n3⟩ := h.seed3
  refine ⟨?_, ?_, ?_, ?_⟩
  · rw [denoteA_nonptr s.arena 0 x0 g0 (by simp [i0]), n0]
  · rw [denoteA_nonptr s.arena 1 x1 g1 (by simp [i1]), n1]
  · rw [denoteA_nonptr s.arena 2 x2 g2 (by simp [i2]), n2]
  · rw [denoteA_nonptr s.arena 3 x3 g3 (by simp [i3]), n3]

theorem denote_ptr_entity (s : St) (h : Good s) (e : Nat) (he4 : 4 ≤ e)
    (hel : e < s.arena.length) :
    ∃ ent c, s.arena[e]? = some ent ∧ ent.id = .pointerId ∧
      ent.pointer_child = some c ∧ c < e ∧
      denoteA s.arena e = .ptr ent.pointer_is_const (denoteA s.arena c) ∧
      ∃ centr, s.arena[c]? = some centr ∧
        slotGet centr ent.pointer_is_const = some e := by
  obtain ⟨x, hx⟩ : ∃ y, s.arena[e]? = some y :=
    ⟨s.arena[e], List.getElem?_eq_getElem hel⟩
  have hid := h.only_ptrs e _ hx he4
  obtain ⟨c, centr, hc, hclt, hcg, hslot⟩ := h.ptr_back e _ hx hid
  exact ⟨_, c, hx, hid, hc, hclt,
    denoteA_ptr _ (wfa_of_good s h) e _ c hx hid hc hclt, centr, hcg, hslot⟩

theorem denote_inj (s : St) (h : Good s) :
    ∀ e1, e1 < s.arena.length → ∀ e2, e2 < s.arena.length →
      denoteA s.arena e1 = denoteA s.arena e2 → e1 = e2 := by
  intro e1
  induction e1 using Nat.strong_induction_on with
  | _ e1 ih =>
    intro he1 e2 he2 heq
    obtain ⟨d0, d1, d2, d3⟩ := denote_seed s h
    by_cases h14 : e1 < 4
    · by_cases h24 : e2 < 4
      · interval_cases e1 <;> interval_cases e2 <;> simp_all
      · obtain ⟨ent, c, _, _, _, _, hde, _⟩ :=
          denote_ptr_entity s h e2 (by omega) he2
        interval_cases e1 <;> simp_all
    · by_cases h24 : e2 < 4
      · obtain ⟨ent, c, _, _, _, _, hde, _⟩ :=
          denote_ptr_entity s h e1 (by omega) he1
        interval_cases e2 <;> simp_all
      · obtain ⟨ent1, c1, hg1, hi1, hc1, hl1, hd1, centr1, hcg1, hs1⟩ :=
          denote_ptr_entity s h e1 (by omega) he1
        obtain ⟨ent2, c2, hg2, hi2, hc2, hl2, hd2, centr2, hcg2, hs2⟩ :=
          denote_ptr_entity s h e2 (by omega) he2
        rw [hd1, hd2] at heq
        injection heq with hk hde
        obtain rfl : c1 = c2 :=
          ih c1 hl1 (by omega) c2 (by omega) hde
        obtain rfl : centr1 = centr2 := by
          rw [hcg1] at hcg2
          injection hcg2
        rw [hk] at hs1
        rw [hs1] at hs2
        injection hs2

/-! ## Theorems: the pointer-allocation step preserves the invariant. -/

theorem getEnt_get? (s : St) (i : Nat) (hi : i < s.arena.length) :
    s.arena[i]? = some (getEnt s i) := by
  rw [getEnt, List.getD_eq_getElem?_getD, List.getElem?_eq_getElem hi]
  rfl

theorem string_ne_of_head (s t : String) (h : s.data.head? ≠ t.data.head?) :
    s ≠ t := fun he => h (he ▸ rfl)

theorem ptr_name_head (x y : String) :
    ("*" ++ x ++ " " ++ y).data.head? = some '*' := by
  rw [String.data_append, String.data_append, String.data_append]
  rfl

theorem ptr_name_ne_seed (x y : String) (n : String)
    (hn : n.data.head? ≠ some '*') : ¬ ("*" ++ x ++ " " ++ y = n) := by
  intro h
  exact hn (h ▸ ptr_name_head x y)

theorem slotGet_update_self (ce : TypeTableEntry) (k : Bool) (v : Nat) :
    slotGet (set_parent_slot ce k v) k = some v := by
  cases k <;> simp [slotGet, set_parent_slot]

theorem slotGet_update_other (ce : TypeTableEntry) (k k' : Bool) (v : Nat)
    (h : k' ≠ k) :
    slotGet (set_parent_slot ce k v) k' = slotGet ce k' := by
  cases k <;> cases k' <;> simp_all [slotGet, set_parent_slot]

theorem update_id (ce : TypeTableEntry) (k : Bool) (v : Nat) :
    (set_parent_slot ce k v).id = ce.id := by
  cases k <;> rfl

theorem update_name (ce : TypeTableEntry) (k : Bool) (v : Nat) :
    (set_parent_slot ce k v).name = ce.name := by
  cases k <;> rfl

theorem update_child (ce : TypeTableEntry) (k : Bool) (v : Nat) :
    (set_parent_slot ce k v).pointer_child = ce.pointer_child := by
  cases k <;> rfl

theorem update_is_const (ce : TypeTableEntry) (k : Bool) (v : Nat) :
    (set_parent_slot ce k v).pointer_is_const = ce.pointer_is_const := by
  cases k <;> rfl

theorem update_coreEq (ce : TypeTableEntry) (k : Bool) (v : Nat) :
    coreEq ce (set_parent_slot ce k v) := by
  cases k <;> exact ⟨rfl, rfl, rfl, rfl, rfl⟩

theorem ptr_display_name_ne (k : Bool) (y : String) (n : String)
    (hn : n.data.head? ≠ some '*') :
    ¬ (ptr_display_name k y = n) := by
  rw [ptr_display_name]
  exact ptr_name_ne_seed _ y n hn

theorem create_arena (s2 : St) (centry : Nat) (ce : TypeTableEntry)
    (k : Bool) :
    (create_pointer_entry s2 centry ce k).1.arena =
      (s2.arena ++ [ptr_entity centry ce k]).set centry
        (set_parent_slot ce k s2.arena.length) := rfl

theorem create_table (s2 : St) (centry : Nat) (ce : TypeTableEntry)
    (k : Bool) :
    (create_pointer_entry s2 centry ce k).1.type_table =
      putA s2.type_table (ptr_display_name k ce.name) s2.arena.length := rfl

theorem create_ptr_spec (s2 : St) (hg : Good s2) (centry : Nat) (k : Bool)
    (ce : TypeTableEntry) (hce : s2.arena[centry]? = some ce)
    (hslot : slotGet ce k = none) :
    Good (create_pointer_entry s2 centry ce k).1 ∧
    Extends s2 (create_pointer_entry s2 centry ce k).1 ∧
    (create_pointer_entry s2 centry ce k).1.errors = s2.errors ∧
    AnaFrame s2 (create_pointer_entry s2 centry ce k).1 ∧
    (create_pointer_entry s2 centry ce k).2 = s2.arena.length ∧
    (create_pointer_entry s2 centry ce k).1.arena.length =
      s2.arena.length + 1 ∧
    denoteA (create_pointer_entry s2 centry ce k).1.arena s2.arena.length =
      .ptr k (denoteA (create_pointer_entry s2 centry ce k).1.arena centry) := by
  have hlt : centry < s2.arena.length := (List.getElem?_eq_some.mp hce).1
  have hlen : (create_pointer_entry s2 centry ce k).1.arena.length =
      s2.arena.length + 1 := by
    rw [create_arena]
    simp
  have hgc : (create_pointer_entry s2 centry ce k).1.arena[centry]? =
      some (set_parent_slot ce k s2.arena.length) := by
    rw [create_arena]
    exact List.getElem?_set_self (by simp; omega)
  have hgn : (create_pointer_entry s2 centry ce k).1.arena[s2.arena.length]? =
      some (ptr_entity centry ce k) := by
    rw [create_arena, List.getElem?_set_ne (by omega : centry ≠ s2.arena.length)]
    simp
  have hkeep : ∀ i, i ≠ centry → i < s2.arena.length →
      (create_pointer_entry s2 centry ce k).1.arena[i]? = s2.arena[i]? := by
    intro i hne hi
    rw [create_arena, List.getElem?_set_ne (fun h => hne h.symm),
        List.getElem?_append_left hi]
  have hsplit : ∀ (i : Nat) (ent : TypeTableEntry),
      (create_pointer_entry s2 centry ce k).1.arena[i]? = some ent →
      (i = centry ∧ ent = set_parent_slot ce k s2.arena.length) ∨
      (i = s2.arena.length ∧ ent = ptr_entity centry ce k) ∨
      (i ≠ centry ∧ i < s2.arena.length ∧ s2.arena[i]? = some ent) := by
    intro i ent h
    by_cases h1 : i = centry
    · subst h1
      rw [hgc] at h
      exact Or.inl ⟨rfl, by injection h with h; exact h.symm⟩
    · by_cases h2 : i = s2.arena.length
      · subst h2
        rw [hgn] at h
        exact Or.inr (Or.inl ⟨rfl, by injection h with h; exact h.symm⟩)
      · have hi : i < s2.arena.length + 1 := by
          have := (List.getElem?_eq_some.mp h).1
          omega
        have hi2 : i < s2.arena.length := by omega
        exact Or.inr (Or.inr ⟨h1, hi2, (hkeep i h1 hi2).symm.trans h⟩)
  obtain ⟨x0, g0, i0, n0⟩ := hg.seed0
  obtain ⟨x1, g1, i1, n1⟩ := hg.seed1
  obtain ⟨x2, g2, i2, n2⟩ := hg.seed2
  obtain ⟨x3, g3, i3, n3⟩ := hg.seed3
  have hseed : ∀ (j : Nat) (xj : TypeTableEntry), s2.arena[j]? = some xj →
      ∃ ent, (create_pointer_entry s2 centry ce k).1.arena[j]? = some ent ∧
        ent.id = xj.id ∧ ent.name = xj.name := by
    intro j xj hgj
    by_cases hc : j = centry
    · subst hc
      rw [hce] at hgj
      obtain rfl : ce = xj := by injection hgj
      exact ⟨_, hgc, update_id ce k _, update_name ce k _⟩
    · exact ⟨xj, by
        rw [hkeep j hc (List.getElem?_eq_some.mp hgj).1]; exact hgj, rfl, rfl⟩
  have hg3 : Good (create_pointer_entry s2 centry ce k).1 := by
    refine ⟨?_, ?_, ?_, ?_, ?_, ?_, ?_, ?_, ?_, ?_, ?_, ?_, ?_, ?_, ?_⟩
    · rw [hlen]
      have := hg.len4
      omega
    · obtain ⟨e, he, hi, hn⟩ := hseed 0 x0 g0
      exact ⟨e, he, hi.trans i0, hn.trans n0⟩
    · obtain ⟨e, he, hi, hn⟩ := hseed 1 x1 g1
      exact ⟨e, he, hi.trans i1, hn.trans n1⟩
    · obtain ⟨e, he, hi, hn⟩ := hseed 2 x2 g2
      exact ⟨e, he, hi.trans i2, hn.trans n2⟩
    · obtain ⟨e, he, hi, hn⟩ := hseed 3 x3 g3
      exact ⟨e, he, hi.trans i3, hn.trans n3⟩
    · intro i ent hgi h4
      rcases hsplit i ent hgi with ⟨h1, rfl⟩ | ⟨h1, rfl⟩ | ⟨_, _, hold⟩
      · obtain rfl : centry = i := h1.symm
        rw [update_id]
        exact hg.only_ptrs centry ce hce h4
      · rfl
      · exact hg.only_ptrs i ent hold h4
    · intro i ent hgi hid
      rcases hsplit i ent hgi with ⟨h1, rfl⟩ | ⟨h1, rfl⟩ | ⟨hne, hiL, hold⟩
      · obtain rfl : centry = i := h1.symm
        rw [update_id] at hid
        obtain ⟨c, centr, hcch, hclt', hcg, hsl⟩ :=
          hg.ptr_back centry ce hce hid
        refine ⟨c, centr, by rw [update_child]; exact hcch, hclt', ?_, ?_⟩
        · rw [hkeep c (by omega) (by omega)]
          exact hcg
        · rw [update_is_const]
          exact hsl
      · subst h1
        refine ⟨centry, set_parent_slot ce k s2.arena.length, rfl, hlt,
          hgc, ?_⟩
        exact slotGet_update_self ce k s2.arena.length
      · obtain ⟨c, centr, hcch, hclt', hcg, hsl⟩ :=
          hg.ptr_back i ent hold hid
        by_cases hcc : c = centry
        · rw [hcc, hce] at hcg
          have hcentr : centr = ce := by injection hcg with h; exact h.symm
          rw [hcentr] at hsl
          have hpicne : ent.pointer_is_const ≠ k := by
            intro he
            rw [he, hslot] at hsl
            exact Option.noConfusion hsl
          refine ⟨c, set_parent_slot ce k s2.arena.length, hcch, hclt',
            by rw [hcc]; exact hgc, ?_⟩
          rw [slotGet_update_other ce k ent.pointer_is_const _ hpicne]
          exact hsl
        · exact ⟨c, centr, hcch, hclt',
            by rw [hkeep c hcc (by omega)]; exact hcg, hsl⟩
    · intro i ent k' p hgi hsl
      rcases hsplit i ent hgi with ⟨h1, rfl⟩ | ⟨h1, rfl⟩ | ⟨hne, hiL, hold⟩
      · obtain rfl : centry = i := h1.symm
        by_cases hkk : k' = k
        · subst hkk
          rw [slotGet_update_self] at hsl
          obtain rfl : s2.arena.length = p := by injection hsl
          exact ⟨ptr_entity centry ce k', hgn, rfl, rfl, rfl⟩
        · rw [slotGet_update_other ce k k' _ hkk] at hsl
          obtain ⟨q, hq, hqid, hqch, hqic⟩ :=
            hg.slot_ok centry ce k' p hce hsl
          have hpne : p ≠ centry := by
            intro hpc
            rw [hpc, hce] at hq
            have hqe : q = ce := by injection hq with h; exact h.symm
            have hqid2 : ce.id = .pointerId := hqe ▸ hqid
            obtain ⟨c0, centr0, hc0, hlt0, _, _⟩ :=
              hg.ptr_back centry ce hce hqid2
            have hch2 : ce.pointer_child = some centry := hqe ▸ hqch
            rw [hch2] at hc0
            have hpc0 : centry = c0 := by injection hc0
            omega
          refine ⟨q, ?_, hqid, hqch, hqic⟩
          rw [hkeep p hpne (List.getElem?_eq_some.mp hq).1]
          exact hq
      · subst h1
        have : slotGet (ptr_entity centry ce k) k' = none := by
          cases k' <;> rfl
        rw [this] at hsl
        exact Option.noConfusion hsl
      · obtain ⟨q, hq, hqid, hqch, hqic⟩ := hg.slot_ok i ent k' p hold hsl
        by_cases hpc : p = centry
        · rw [hpc, hce] at hq
          have hqe : q = ce := by injection hq with h; exact h.symm
          refine ⟨set_parent_slot ce k s2.arena.length,
            by rw [hpc]; exact hgc, ?_, ?_, ?_⟩
          · rw [update_id, ← hqe]; exact hqid
          · rw [update_child, ← hqe]; exact hqch
          · rw [update_is_const, ← hqe]; exact hqic
        · refine ⟨q, ?_, hqid, hqch, hqic⟩
          rw [hkeep p hpc (List.getElem?_eq_some.mp hq).1]
          exact hq
    · intro n e h
      rw [create_table, lookupA_putA] at h
      rw [hlen]
      split at h
      · injection h with h
        omega
      · have := hg.tbl_range n e h
        omega
    · rw [create_table, lookupA_putA,
        if_neg (ptr_display_name_ne k ce.name "u8" (by decide))]
      exact hg.tbl_u8
    · rw [create_table, lookupA_putA,
        if_neg (ptr_display_name_ne k ce.name "i32" (by decide))]
      exact hg.tbl_i32
    · rw [create_table, lookupA_putA,
        if_neg (ptr_display_name_ne k ce.name "void" (by decide))]
      exact hg.tbl_void
    · rw [create_table, lookupA_putA,
        if_neg (ptr_display_name_ne k ce.name "unreachable" (by decide))]
      exact hg.tbl_unreachable
    · intro n h
      rw [create_table, lookupA_putA] at h
      split at h
      · injection h with h
        have := hg.len4
        omega
      · exact hg.tbl_un_only n h
    · exact hg.inval
  have hext : Extends s2 (create_pointer_entry s2 centry ce k).1 := by
    refine ⟨⟨by rw [hlen]; omega, ?_⟩, rfl⟩
    intro i x hx
    by_cases hic : i = centry
    · rw [hic, hce] at hx
      have hxe : x = ce := by injection hx with h; exact h.symm
      refine ⟨set_parent_slot ce k s2.arena.length,
        by rw [hic]; exact hgc, ?_⟩
      rw [hxe]
      exact update_coreEq ce k _
    · exact ⟨x, by
        rw [hkeep i hic (List.getElem?_eq_some.mp hx).1]; exact hx,
        coreEq_refl x⟩
  have hden : denoteA (create_pointer_entry s2 centry ce k).1.arena
      s2.arena.length =
      .ptr k (denoteA (create_pointer_entry s2 centry ce k).1.arena centry) := by
    have := denoteA_ptr (create_pointer_entry s2 centry ce k).1.arena
      (wfa_of_good _ hg3) s2.arena.length (ptr_entity centry ce k) centry
      hgn rfl rfl hlt
    exact this
  exact ⟨hg3, hext, rfl, ⟨rfl, rfl, rfl, rfl, rfl⟩, rfl, hlen, hden⟩

/-! ## Theorems: the full specification of type resolution. -/

theorem slotGet_def (ent : TypeTableEntry) (k : Bool) :
    (if k then ent.pointer_const_parent else ent.pointer_mut_parent) =
    slotGet ent k := rfl

theorem self_mem_subnodes (t : ATypeRef) : t ∈ t.subnodes := by
  cases t <;> simp [ATypeRef.subnodes]

theorem nodesOk_mono (s s' : St) (hg : Good s) (hg' : Good s')
    (hext : Extends s s') (t : ATypeRef) (h : NodesOk s t) : NodesOk s' t := by
  intro u hu
  obtain ⟨hlt, hden⟩ := h u hu
  refine ⟨lt_of_lt_of_le hlt hext.core.1, ?_⟩
  rw [denote_stable s.arena s'.arena hext.core (wfa_of_good s hg)
    (wfa_of_good s' hg') u.entry hlt]
  exact hden

theorem resolve_spec (t : TypeRefNode) : ∀ (s : St), Good s →
    Good (resolve_type_and_recurse s t).1 ∧
    Extends s (resolve_type_and_recurse s t).1 ∧
    ErrsAppend s (resolve_type_and_recurse s t).1 ∧
    AnaFrame s (resolve_type_and_recurse s t).1 ∧
    (resolve_type_and_recurse s t).2.strip = t ∧
    (resolve_type_and_recurse s t).2.entry <
      (resolve_type_and_recurse s t).1.arena.length ∧
    ((resolve_type_and_recurse s t).2.entry = unreachableEntity ↔
      type_is_unreachable t = true) ∧
    (seeded_leaves t = true →
      NodesOk (resolve_type_and_recurse s t).1
        (resolve_type_and_recurse s t).2) := by
  induction t with
  | primitive pos name =>
      intro s hg
      cases hl : lookupA s.type_table name with
      | some e =>
          simp only [resolve_type_and_recurse, hl]
          refine ⟨hg, extends_refl s, errsAppend_refl s, anaFrame_refl s,
            rfl, hg.tbl_range name e hl, ?_, ?_⟩
          · simp only [ATypeRef.entry, unreachableEntity, type_is_unreachable]
            constructor
            · intro he
              have hn := hg.tbl_un_only name (by rw [← he]; exact hl)
              simp [hn]
            · intro ht
              have hn : name = "unreachable" := by simpa using ht
              rw [hn, hg.tbl_unreachable] at hl
              injection hl with h
              exact h.symm
          · intro hs
            intro u hu
            simp only [ATypeRef.subnodes, List.mem_singleton] at hu
            subst hu
            simp only [ATypeRef.entry, ATypeRef.toTy]
            refine ⟨hg.tbl_range name e hl, ?_⟩
            have hsn : ((name = "u8" ∨ name = "i32") ∨ name = "void") ∨
                name = "unreachable" := by
              simpa [seeded_leaves, seeded_name] using hs
            obtain ⟨d0, d1, d2, d3⟩ := denote_seed s hg
            rcases hsn with ((rfl | rfl) | rfl) | rfl
            · obtain rfl : (0 : Nat) = e := by
                injection hg.tbl_u8.symm.trans hl
              exact d0
            · obtain rfl : (1 : Nat) = e := by
                injection hg.tbl_i32.symm.trans hl
              exact d1
            · obtain rfl : (2 : Nat) = e := by
                injection hg.tbl_void.symm.trans hl
              exact d2
            · obtain rfl : (3 : Nat) = e := by
                injection hg.tbl_unreachable.symm.trans hl
              exact d3
      | none =>
          simp only [resolve_type_and_recurse, hl]
          refine ⟨good_add_node_error s pos _ hg, ⟨coreExt_refl _, rfl⟩,
            errsAppend_one s pos _, ⟨rfl, rfl, rfl, rfl, rfl⟩, rfl, ?_, ?_, ?_⟩
          · simp only [ATypeRef.entry, add_node_error]
            rw [hg.inval]
            have := hg.len4
            omega
          · simp only [ATypeRef.entry, unreachableEntity, type_is_unreachable]
            rw [hg.inval]
            constructor
            · intro h
              omega
            · intro ht
              have hn : name = "unreachable" := by simpa using ht
              rw [hn, hg.tbl_unreachable] at hl
              exact Option.noConfusion hl
          · intro hs
            have hsn : ((name = "u8" ∨ name = "i32") ∨ name = "void") ∨
                name = "unreachable" := by
              simpa [seeded_leaves, seeded_name] using hs
            rcases hsn with ((rfl | rfl) | rfl) | rfl
            · exact Option.noConfusion (hg.tbl_u8.symm.trans hl)
            · exact Option.noConfusion (hg.tbl_i32.symm.trans hl)
            · exact Option.noConfusion (hg.tbl_void.symm.trans hl)
            · exact Option.noConfusion (hg.tbl_unreachable.symm.trans hl)
  | pointer pos k child ih =>
      intro s hg
      rcases hres : resolve_type_and_recurse s child with ⟨s1, ac⟩
      have hchild := ih s hg
      rw [hres] at hchild
      dsimp only at hchild
      obtain ⟨g1, ex1, er1, af1, st1, lt1, iff1, nok1⟩ := hchild
      simp only [resolve_type_and_recurse, hres]
      have hce : s1.arena[ac.entry]? = some (getEnt s1 ac.entry) :=
        getEnt_get? s1 ac.entry lt1
      set ce := getEnt s1 ac.entry with hcedef
      set s2 := (if ce.id = .unreachableId then
          add_node_error s1 pos "pointer to unreachable not allowed"
        else s1) with hs2def
      have hg2 : Good s2 := by
        rw [hs2def]
        split
        · exact good_add_node_error s1 pos _ g1
        · exact g1
      have hex2 : Extends s1 s2 := by
        rw [hs2def]
        split
        · exact ⟨coreExt_refl _, rfl⟩
        · exact extends_refl s1
      have her2 : ErrsAppend s1 s2 := by
        rw [hs2def]
        split
        · exact errsAppend_one s1 pos _
        · exact errsAppend_refl s1
      have haf2 : AnaFrame s1 s2 := by
        rw [hs2def]
        split
        · exact ⟨rfl, rfl, rfl, rfl, rfl⟩
        · exact anaFrame_refl s1
      have har2 : s2.arena = s1.arena := by
        rw [hs2def]
        split <;> rfl
      have hce2 : s2.arena[ac.entry]? = some ce := by
        rw [har2]
        exact hce
      rw [slotGet_def]
      cases hslot : slotGet ce k with
      | some p =>
          obtain ⟨pe, hpe, hpeid, hpech, hpeic⟩ :=
            hg2.slot_ok ac.entry ce k p hce2 hslot
          have hplen : p < s2.arena.length := (List.getElem?_eq_some.mp hpe).1
          obtain ⟨x3, g3x, i3x, n3x⟩ := hg2.seed3
          refine ⟨hg2, extends_trans ex1 hex2, errsAppend_trans er1 her2,
            anaFrame_trans af1 haf2, ?_, ?_, ?_, ?_⟩
          · simp [ATypeRef.strip, st1]
          · simpa [ATypeRef.entry] using hplen
          · simp only [ATypeRef.entry, unreachableEntity, type_is_unreachable]
            constructor
            · intro hp3
              rw [hp3, g3x] at hpe
              have hx : x3 = pe := by injection hpe
              rw [← hx, i3x] at hpeid
              exact TypeId.noConfusion hpeid
            · intro h
              exact absurd h (by simp)
          · intro hs
            have hsc : seeded_leaves child = true := by
              simpa [seeded_leaves] using hs
            have nok2 : NodesOk s2 ac :=
              nodesOk_mono s1 s2 g1 hg2 hex2 ac (nok1 hsc)
            intro u hu
            simp only [ATypeRef.subnodes] at hu
            rcases List.mem_cons.mp hu with rfl | hu2
            · refine ⟨hplen, ?_⟩
              obtain ⟨c0, centr0, hch0, hlt0, _, _⟩ :=
                hg2.ptr_back p pe hpe hpeid
              have hc0 : ac.entry = c0 := by
                rw [hpech] at hch0
                injection hch0
              have hden := denoteA_ptr s2.arena (wfa_of_good s2 hg2) p pe c0
                hpe hpeid hch0 hlt0
              show denoteA s2.arena p = .ptr k ac.toTy
              rw [hden, hpeic, ← hc0,
                (nok2 ac (self_mem_subnodes ac)).2]
            · exact nok2 u hu2
      | none =>
          obtain ⟨g3, ex3, er3, af3, idx3, len3, den3⟩ :=
            create_ptr_spec s2 hg2 ac.entry k ce hce2 hslot
          have her3 : ErrsAppend s2 (create_pointer_entry s2 ac.entry ce k).1 :=
            ⟨[], by rw [er3]; simp, by simp⟩
          have hex13 : Extends s1 (create_pointer_entry s2 ac.entry ce k).1 :=
            extends_trans hex2 ex3
          refine ⟨g3, extends_trans ex1 hex13,
            errsAppend_trans er1 (errsAppend_trans her2 her3),
            anaFrame_trans af1 (anaFrame_trans haf2 af3), ?_, ?_, ?_, ?_⟩
          · simp [ATypeRef.strip, st1]
          · show (create_pointer_entry s2 ac.entry ce k).2 <
              (create_pointer_entry s2 ac.entry ce k).1.arena.length
            rw [idx3, len3]
            omega
          · show (create_pointer_entry s2 ac.entry ce k).2 = unreachableEntity ↔
              type_is_unreachable (.pointer pos k child) = true
            simp only [unreachableEntity, type_is_unreachable]
            constructor
            · intro h3
              rw [idx3] at h3
              have := hg2.len4
              omega
            · intro h
              exact absurd h (by simp)
          · intro hs
            have hsc : seeded_leaves child = true := by
              simpa [seeded_leaves] using hs
            have nok3 : NodesOk (create_pointer_entry s2 ac.entry ce k).1 ac :=
              nodesOk_mono s1 _ g1 g3 hex13 ac (nok1 hsc)
            intro u hu
            simp only [ATypeRef.subnodes] at hu
            rcases List.mem_cons.mp hu with rfl | hu2
            · refine ⟨?_, ?_⟩
              · show (create_pointer_entry s2 ac.entry ce k).2 <
                  (create_pointer_entry s2 ac.entry ce k).1.arena.length
                rw [idx3, len3]
                omega
              · show denoteA (create_pointer_entry s2 ac.entry ce k).1.arena
                  (create_pointer_entry s2 ac.entry ce k).2 = .ptr k ac.toTy
                rw [idx3, den3, (nok3 ac (self_mem_subnodes ac)).2]
            · exact nok3 u hu2

theorem resolve_list_spec (ts : List TypeRefNode) : ∀ (s : St), Good s →
    (∀ t ∈ ts, seeded_leaves t = true) →
    Good (resolve_type_list s ts).1 ∧
    Extends s (resolve_type_list s ts).1 ∧
    ∀ a ∈ (resolve_type_list s ts).2, NodesOk (resolve_type_list s ts).1 a := by
  induction ts with
  | nil =>
      intro s hg _
      exact ⟨hg, extends_refl s, by simp [resolve_type_list]⟩
  | cons t ts ih =>
      intro s hg hseeds
      rcases hr1 : resolve_type_and_recurse s t with ⟨s1, at1⟩
      have hspec := resolve_spec t s hg
      rw [hr1] at hspec
      dsimp only at hspec
      obtain ⟨g1, ex1, _, _, _, _, _, nokf⟩ := hspec
      have nok1 : NodesOk s1 at1 := nokf (hseeds t (by simp))
      rcases hr2 : resolve_type_list s1 ts with ⟨s2, ats⟩
      have hrest := ih s1 g1 (fun u hu => hseeds u (by simp [hu]))
      rw [hr2] at hrest
      dsimp only at hrest
      obtain ⟨g2, ex2, noks⟩ := hrest
      simp only [resolve_type_list, hr1, hr2]
      refine ⟨g2, extends_trans ex1 ex2, ?_⟩
      intro a ha
      rcases List.mem_cons.mp ha with rfl | ha2
      · exact nodesOk_mono s1 s2 g1 g2 ex2 a nok1
      · exact noks a ha2

/-! ## Theorems: the analyzer preserves the combined invariant. -/

theorem tiuA_strip (a : ATypeRef) :
    type_is_unreachableA a = type_is_unreachable a.strip := by
  cases a <;> rfl

theorem analyze_param_decls_spec (ps : List ParamDecl) : ∀ (s : St), Good s →
    Good (analyze_param_decls s ps).1 ∧
    Extends s (analyze_param_decls s ps).1 ∧
    ErrsAppend s (analyze_param_decls s ps).1 ∧
    AnaFrame s (analyze_param_decls s ps).1 := by
  induction ps with
  | nil =>
      intro s hg
      exact ⟨hg, extends_refl s, errsAppend_refl s, anaFrame_refl s⟩
  | cons p ps ih =>
      intro s hg
      rcases hr1 : resolve_type_and_recurse s p.type with ⟨s1, at1⟩
      have hspec := resolve_spec p.type s hg
      rw [hr1] at hspec
      dsimp only at hspec
      obtain ⟨g1, ex1, er1, af1, _, _, _, _⟩ := hspec
      rcases hr2 : analyze_param_decls s1 ps with ⟨s2, aps⟩
      have hrest := ih s1 g1
      rw [hr2] at hrest
      dsimp only at hrest
      obtain ⟨g2, ex2, er2, af2⟩ := hrest
      simp only [analyze_param_decls, analyze_param_decl, hr1, hr2]
      exact ⟨g2, extends_trans ex1 ex2, errsAppend_trans er1 er2,
        anaFrame_trans af1 af2⟩

theorem analyze_fn_proto_spec (p : FnProto) (s : St) (hg : Good s) :
    Good (analyze_fn_proto s p).1 ∧
    Extends s (analyze_fn_proto s p).1 ∧
    ErrsAppend s (analyze_fn_proto s p).1 ∧
    AnaFrame s (analyze_fn_proto s p).1 ∧
    ((analyze_fn_proto s p).2.return_type.entry = unreachableEntity ↔
      type_is_unreachable p.return_type = true) ∧
    (analyze_fn_proto s p).2.return_type.strip = p.return_type := by
  rcases hr1 : analyze_param_decls s p.params with ⟨s1, aps⟩
  have hps := analyze_param_decls_spec p.params s hg
  rw [hr1] at hps
  dsimp only at hps
  obtain ⟨g1, ex1, er1, af1⟩ := hps
  rcases hr2 : resolve_type_and_recurse s1 p.return_type with ⟨s2, aret⟩
  have hret := resolve_spec p.return_type s1 g1
  rw [hr2] at hret
  dsimp only at hret
  obtain ⟨g2, ex2, er2, af2, st2, _, iff2, _⟩ := hret
  simp only [analyze_fn_proto, hr1, hr2]
  exact ⟨g2, extends_trans ex1 ex2, errsAppend_trans er1 er2,
    anaFrame_trans af1 af2, iff2, st2⟩

theorem errsOk_of_append (s s' : St) (h : ErrsOk s) (ha : ErrsAppend s s') :
    ErrsOk s' := by
  obtain ⟨new, heq, hnew⟩ := ha
  intro e he
  rw [heq] at he
  rcases List.mem_append.mp he with h1 | h1
  · exact h e h1
  · exact hnew e h1

theorem analyze_extern_fn_decl_spec (d : FnDecl) (s : St) (h : AInv s) :
    AInv (analyze_extern_fn_decl s d) := by
  obtain ⟨hg, hfns, hdefs, herrs⟩ := h
  rcases hr1 : analyze_fn_proto s d.fn_proto with ⟨s1, aproto⟩
  have hps := analyze_fn_proto_spec d.fn_proto s hg
  rw [hr1] at hps
  dsimp only at hps
  obtain ⟨g1, ex1, er1, af1, iff1, _⟩ := hps
  simp only [analyze_extern_fn_decl, hr1, addFunction]
  refine ⟨?_, ?_, ?_, ?_⟩
  · obtain ⟨l4, s0, s1x, s2x, s3x, op, pb, so, tr, t0, t1, t2, t3, tu, iv⟩ := g1
    exact ⟨l4, s0, s1x, s2x, s3x, op, pb, so, tr, t0, t1, t2, t3, tu, iv⟩
  · intro f hf
    simp only at hf
    rcases List.mem_append.mp hf with h1 | h1
    · rw [af1.1] at h1
      exact hfns f h1
    · simp only [List.mem_singleton] at h1
      subst h1
      simp only
      constructor
      · intro hmem
        split at hmem
        · next hcond => exact iff1.mpr hcond
        · simp at hmem
      · intro he
        rw [if_pos (iff1.mp he)]
        simp
  · intro q hq
    simp only at hq
    rw [af1.2.1] at hq
    exact hdefs q hq
  · exact errsOk_of_append s _ herrs er1

theorem analyze_extern_fn_decls_spec (ds : List FnDecl) : ∀ (s : St),
    AInv s → AInv (analyze_extern_fn_decls s ds) := by
  induction ds with
  | nil => intro s h; exact h
  | cons d ds ih =>
      intro s h
      exact ih _ (analyze_extern_fn_decl_spec d s h)

theorem analyze_fn_def_spec (d : FnDef) (s : St) (h : AInv s) :
    AInv (analyze_fn_def s d) := by
  obtain ⟨hg, hfns, hdefs, herrs⟩ := h
  cases hl : lookupA s.fn_defs d.fn_proto.name with
  | some a =>
      simp only [analyze_fn_def, hl]
      refine ⟨good_add_node_error s d.pos _ hg, hfns, hdefs, ?_⟩
      exact errsOk_of_append s _ herrs (errsAppend_one s d.pos _)
  | none =>
      rcases hr1 : analyze_fn_proto s d.fn_proto with ⟨s1, aproto⟩
      have hps := analyze_fn_proto_spec d.fn_proto s hg
      rw [hr1] at hps
      dsimp only at hps
      obtain ⟨g1, ex1, er1, af1, iff1, st1⟩ := hps
      simp only [analyze_fn_def, hl, hr1]
      refine ⟨?_, ?_, ?_, ?_⟩
      · obtain ⟨l4, s0, s1x, s2x, s3x, op, pb, so, tr, t0, t1, t2, t3, tu, iv⟩ :=
          g1
        exact ⟨l4, s0, s1x, s2x, s3x, op, pb, so, tr, t0, t1, t2, t3, tu, iv⟩
      · intro f hf
        simp only at hf
        rw [af1.1] at hf
        exact hfns f hf
      · intro q hq
        simp only at hq
        rcases mem_putA _ _ _ q hq with h1 | h1
        · subst h1
          simp only
          rw [tiuA_strip, st1]
          exact iff1.symm
        · rw [af1.2.1] at h1
          exact hdefs q h1
      · exact errsOk_of_append s _ herrs er1

theorem analyze_top_level_spec (d : TopLevelDecl) (s : St) (h : AInv s) :
    AInv (analyze_top_level s d) := by
  cases d with
  | fnDef d => exact analyze_fn_def_spec d s h
  | externBlock b => exact analyze_extern_fn_decls_spec b.fn_decls s h

theorem analyze_top_levels_spec (ds : List TopLevelDecl) : ∀ (s : St),
    AInv s → AInv (analyze_top_levels s ds) := by
  induction ds with
  | nil => intro s h; exact h
  | cons d ds ih =>
      intro s h
      exact ih _ (analyze_top_level_spec d s h)

theorem ainv_add_types (s : St) (ha : s.arena = []) (ht : s.type_table = [])
    (hf : s.mod.functions = []) (hd : s.fn_defs = []) (he : s.errors = []) :
    AInv (add_types s) := by
  refine ⟨good_add_types s ha ht, ?_, ?_, ?_⟩
  · intro f hf2
    have : (add_types s).mod.functions = s.mod.functions := rfl
    rw [this, hf] at hf2
    exact absurd hf2 (List.not_mem_nil f)
  · intro q hq
    have : (add_types s).fn_defs = s.fn_defs := rfl
    rw [this, hd] at hq
    exact absurd hq (List.not_mem_nil q)
  · intro e he2
    have : (add_types s).errors = s.errors := rfl
    rw [this, he] at he2
    exact absurd he2 (List.not_mem_nil e)

theorem semantic_analyze_ainv (g : CodeGen) (hst : g.st = initSt) :
    AInv (semantic_analyze g).st := by
  simp only [semantic_analyze]
  apply analyze_top_levels_spec
  apply ainv_add_types <;> rw [hst] <;> rfl

/-! ## Theorems: the lowering pass touches only the builder, globals,
string pool and errors. -/

theorem errsAppend_of_eq {s s' : St} (h : s'.errors = s.errors) :
    ErrsAppend s s' := ⟨[], by simp [h], by simp⟩

theorem genFrame_refl (s : St) : GenFrame s s :=
  ⟨rfl, rfl, rfl, rfl, rfl, rfl, errsAppend_refl s⟩

theorem genFrame_trans {s1 s2 s3 : St} (h1 : GenFrame s1 s2)
    (h2 : GenFrame s2 s3) : GenFrame s1 s3 :=
  ⟨h2.1.trans h1.1, h2.2.1.trans h1.2.1, h2.2.2.1.trans h1.2.2.1,
   h2.2.2.2.1.trans h1.2.2.2.1, h2.2.2.2.2.1.trans h1.2.2.2.2.1,
   h2.2.2.2.2.2.1.trans h1.2.2.2.2.2.1,
   errsAppend_trans h1.2.2.2.2.2.2 h2.2.2.2.2.2.2⟩

theorem emit_frame (s : St) (i : Instr) : GenFrame s (emit s i).1 :=
  ⟨rfl, rfl, rfl, rfl, rfl, rfl, errsAppend_of_eq rfl⟩

theorem find_or_create_string_frame (s : St) (str : List Nat) :
    GenFrame s (find_or_create_string s str).1 := by
  cases hl : lookupB s.str_table str with
  | some g =>
      simp only [find_or_create_string, hl]
      exact genFrame_refl s
  | none =>
      simp only [find_or_create_string, hl]
      exact ⟨rfl, rfl, rfl, rfl, rfl, rfl, errsAppend_of_eq rfl⟩

theorem add_node_error_frame (s : St) (pos : Pos) (m : String) :
    GenFrame s (add_node_error s pos m) :=
  ⟨rfl, rfl, rfl, rfl, rfl, rfl, errsAppend_one s pos m⟩

mutual
theorem gen_expr_frame (s : St) (e : Expr) : GenFrame s (gen_expr s e).1 := by
  cases e with
  | number pos digits =>
      simp only [gen_expr]
      exact genFrame_refl s
  | stringLit pos bytes =>
      rcases hf : find_or_create_string s bytes with ⟨s1, gid⟩
      have h1 := find_or_create_string_frame s bytes
      rw [hf] at h1
      simp only [gen_expr, hf]
      exact genFrame_trans h1 (emit_frame s1 _)
  | fnCallE pos c =>
      simp only [gen_expr]
      exact gen_fn_call_frame s c
  | unreachableE pos =>
      simp only [gen_expr]
      exact emit_frame s _

theorem gen_fn_call_frame (s : St) (c : FnCallNode) :
    GenFrame s (gen_fn_call s c).1 := by
  rcases c with ⟨pos, name, args⟩
  cases hl : lookupA s.fn_table name with
  | none =>
      simp only [gen_fn_call, hl]
      exact add_node_error_frame s pos _
  | some fe =>
      simp only [gen_fn_call, hl]
      by_cases harr : fe.proto_node.params.length ≠ args.length
      · rw [if_pos harr]
        exact add_node_error_frame s pos _
      · rw [if_neg harr]
        rcases hg : gen_expr_list s args with ⟨s1, vals⟩
        have h1 := gen_expr_list_frame s args
        rw [hg] at h1
        simp only [hg]
        split
        · exact genFrame_trans h1
            (genFrame_trans (emit_frame s1 _) (emit_frame _ _))
        · exact genFrame_trans h1 (emit_frame s1 _)

theorem gen_expr_list_frame (s : St) (es : List Expr) :
    GenFrame s (gen_expr_list s es).1 := by
  cases es with
  | nil =>
      simp only [gen_expr_list]
      exact genFrame_refl s
  | cons e rest =>
      rcases h1 : gen_expr s e with ⟨s1, v⟩
      have hf1 := gen_expr_frame s e
      rw [h1] at hf1
      rcases h2 : gen_expr_list s1 rest with ⟨s2, vs⟩
      have hf2 := gen_expr_list_frame s1 rest
      rw [h2] at hf2
      simp only [gen_expr_list, h1, h2]
      exact genFrame_trans hf1 hf2
end

theorem gen_statement_frame (s : St) (st : Stmt) :
    GenFrame s (gen_statement s st) := by
  cases st with
  | returnStmt pos e =>
      rcases h1 : gen_expr s e with ⟨s1, v⟩
      have hf1 := gen_expr_frame s e
      rw [h1] at hf1
      simp only [gen_statement, h1]
      exact genFrame_trans hf1 (emit_frame s1 _)
  | exprStmt pos e =>
      have hf1 := gen_expr_frame s e
      simp only [gen_statement]
      exact hf1

theorem gen_statements_frame (l : List Stmt) : ∀ (s : St),
    GenFrame s (gen_statements s l) := by
  induction l with
  | nil =>
      intro s
      exact genFrame_refl s
  | cons st rest ih =>
      intro s
      exact genFrame_trans (gen_statement_frame s st) (ih _)

theorem gen_block_frame (s : St) (b : Block) : GenFrame s (gen_block s b) :=
  gen_statements_frame b.statements s

theorem gen_fn_def_spec (d : AFnDef) (s : St)
    (hd : type_is_unreachableA d.fn_proto.return_type = true ↔
      d.fn_proto.return_type.entry = unreachableEntity)
    (hf : FnsOk s) (he : ErrsOk s) :
    FnsOk (gen_fn_def s d) ∧ ErrsOk (gen_fn_def s d) := by
  simp only [gen_fn_def, addFunction]
  have hb := gen_block_frame
    { s with mod := { s.mod with functions := s.mod.functions ++
      [{ fname := d.fn_proto.name,
         ty := .fnT (to_llvm_type s d.fn_proto.return_type)
           (d.fn_proto.params.map (fun q => to_llvm_type s q.type)),
         linkage := .externalLinkage, cc := .ccall,
         attrs := (if type_is_unreachableA d.fn_proto.return_type then
             [FnAttr.noreturn] else []) ++ [FnAttr.nounwind],
         src_ret := d.fn_proto.return_type }] } } d.body
  constructor
  · intro f' hf'
    rw [hb.1] at hf'
    simp only at hf'
    rcases List.mem_append.mp hf' with h1 | h1
    · exact hf f' h1
    · simp only [List.mem_singleton] at h1
      subst h1
      simp only
      constructor
      · intro hmem
        rcases List.mem_append.mp hmem with h2 | h2
        · split at h2
          · next hcond => exact hd.mp hcond
          · simp at h2
        · simp at h2
      · intro he3
        apply List.mem_append.mpr
        left
        rw [if_pos (hd.mpr he3)]
        simp
  · apply errsOk_of_append _ _ he
    have := hb.2.2.2.2.2.2
    obtain ⟨new, heq, hnew⟩ := this
    exact ⟨new, heq, hnew⟩

theorem gen_fn_defs_spec (l : List (String × AFnDef)) : ∀ (s : St),
    (∀ p ∈ l, type_is_unreachableA p.2.fn_proto.return_type = true ↔
      p.2.fn_proto.return_type.entry = unreachableEntity) →
    FnsOk s → ErrsOk s →
    FnsOk (gen_fn_defs s l) ∧ ErrsOk (gen_fn_defs s l) := by
  induction l with
  | nil =>
      intro s _ hf he
      exact ⟨hf, he⟩
  | cons p rest ih =>
      intro s hl hf he
      obtain ⟨hf1, he1⟩ := gen_fn_def_spec p.2 s (hl p (by simp)) hf he
      exact ih _ (fun q hq => hl q (by simp [hq])) hf1 he1

theorem pipeline_fnsOk_errsOk (r : RootNode) (b : Bool) (p : String) :
    FnsOk (run_pipeline r b p) ∧ ErrsOk (run_pipeline r b p) := by
  obtain ⟨hg, hf, hd, he⟩ :=
    semantic_analyze_ainv (create_codegen r b p) rfl
  simp only [run_pipeline, code_gen]
  exact gen_fn_defs_spec _ _ (fun q hq => hd q hq) hf he

theorem resolve_strip (t : TypeRefNode) : ∀ (s : St),
    (resolve_type_and_recurse s t).2.strip = t := by
  induction t with
  | primitive pos name =>
      intro s
      cases hl : lookupA s.type_table name <;>
        simp [resolve_type_and_recurse, hl, ATypeRef.strip]
  | pointer pos k child ih =>
      intro s
      rcases hres : resolve_type_and_recurse s child with ⟨s1, ac⟩
      have hst : ac.strip = child := by
        have := ih s
        rw [hres] at this
        exact this
      simp only [resolve_type_and_recurse, hres]
      cases hslot : (if k then (getEnt s1 ac.entry).pointer_const_parent
          else (getEnt s1 ac.entry).pointer_mut_parent) <;>
        simp [ATypeRef.strip, hst, hslot]

theorem analyze_param_decls_strip (ps : List ParamDecl) : ∀ (s : St),
    (analyze_param_decls s ps).2.map
      (fun q => ({ pos := q.pos, pname := q.pname,
                   type := q.type.strip } : ParamDecl)) = ps := by
  induction ps with
  | nil => intro s; simp [analyze_param_decls]
  | cons p ps ih =>
      intro s
      rcases hr1 : resolve_type_and_recurse s p.type with ⟨s1, at1⟩
      have h1 : at1.strip = p.type := by
        have := resolve_strip p.type s
        rw [hr1] at this
        exact this
      simp [analyze_param_decls, analyze_param_decl, hr1, h1, ih s1]

theorem analyze_fn_proto_strip (p : FnProto) (s : St) :
    (analyze_fn_proto s p).2.strip = p := by
  rcases hr1 : analyze_param_decls s p.params with ⟨s1, aps⟩
  have h1 : aps.map (fun q => ({ pos := q.pos, pname := q.pname,
                                 type := q.type.strip } : ParamDecl)) =
      p.params := by
    have := analyze_param_decls_strip p.params s
    rw [hr1] at this
    exact this
  rcases hr2 : resolve_type_and_recurse s1 p.return_type with ⟨s2, aret⟩
  have h2 : aret.strip = p.return_type := by
    have := resolve_strip p.return_type s1
    rw [hr2] at this
    exact this
  simp [analyze_fn_proto, hr1, hr2, AFnProto.strip, h1, h2]

/-! ## Claim theorems. -/

/-- Claim C3: a function added to the IR module — whether declared in an
ExternBlock during analysis or created for a FnDef during lowering — carries
the no-return attribute exactly when the return TypeRef of its prototype
resolved to the unreachable type entity (arena index 3).  The provenance
field src_ret records the resolved return-type node of the prototype the
function was created from. -/
theorem claim_C3_theorem (r : RootNode) (b : Bool) (p : String)
    (f : IRFunction) (hf : f ∈ (run_pipeline r b p).mod.functions) :
    FnAttr.noreturn ∈ f.attrs ↔ f.src_ret.entry = unreachableEntity :=
  (pipeline_fnsOk_errsOk r b p).1 f hf

/-- Claim C3 witness: an extern declaration returning unreachable produces a
function in the module, and the attribute equivalence holds for it. -/
theorem claim_C3_witness :
    ∃ f, f ∈ (run_pipeline example_extern_unreachable
        false "a.zig").mod.functions ∧
      (FnAttr.noreturn ∈ f.attrs ↔ f.src_ret.entry = unreachableEntity) := by
  obtain ⟨f, hf⟩ : ∃ f, (run_pipeline example_extern_unreachable
      false "a.zig").mod.functions = [f] := ⟨_, rfl⟩
  refine ⟨f, ?_, claim_C3_theorem example_extern_unreachable false "a.zig" f ?_⟩ <;>
    rw [hf] <;> exact List.mem_singleton.mpr rfl

/-- Claim C8: running the Analyzer twice on the same AST yields identical
diagnostic sequences, byte for byte, including coordinates.  In this pure
embedding analysis is a function of the AST, so the two runs are stated
with arbitrary (possibly different) run-specific context: the static flag
and the input path, on which the diagnostics provably do not depend. -/
theorem claim_C8_theorem (r : RootNode) (b1 b2 : Bool) (p1 p2 : String) :
    (semantic_analyze (create_codegen r b1 p1)).st.errors =
    (semantic_analyze (create_codegen r b2 p2)).st.errors := rfl

/-- Claim C9: every diagnostic recorded by the core has line_end and
column_end equal to -1 (the unknown value), and add_node_error — the only
diagnostic entry point — copies exactly the reported node coordinates into
line_start and column_start. -/
theorem claim_C9_theorem (r : RootNode) (b : Bool) (p : String) :
    (∀ e ∈ (run_pipeline r b p).errors,
      e.line_end = -1 ∧ e.column_end = -1) ∧
    ∀ (s : St) (pos : Pos) (m : String),
      (add_node_error s pos m).errors = s.errors ++
        [{ line_start := pos.line, column_start := pos.column,
           line_end := -1, column_end := -1, msg := m : ErrorMsg }] :=
  ⟨fun e he => (pipeline_fnsOk_errsOk r b p).2 e he, fun _ _ _ => rfl⟩

/-- Claim C9 witness: a program with a redefinition error yields a
diagnostic, and its end coordinates are -1. -/
theorem claim_C9_witness :
    ∃ e, e ∈ (run_pipeline example_redefinition false "a.zig").errors ∧
      (e.line_end = -1 ∧ e.column_end = -1) := by
  obtain ⟨e, he⟩ : ∃ e, (run_pipeline example_redefinition
      false "a.zig").errors = [e] := ⟨_, rfl⟩
  refine ⟨e, ?_, (claim_C9_theorem example_redefinition false "a.zig").1 e ?_⟩ <;>
    rw [he] <;> exact List.mem_singleton.mpr rfl

/-- Claim C4: lowering a FnCall whose callee name is absent from fn_table
records exactly one diagnostic undefined function: <name> at the call node
coordinates and yields an i32 null constant; a present callee with a
mismatched argument count records exactly one diagnostic
wrong number of arguments. Expected E, got A. and yields the same i32 null
constant; both paths return normally, so lowering continues. -/
theorem claim_C4_theorem (s : St) (c : FnCallNode) :
    (lookupA s.fn_table c.name = none →
      gen_fn_call s c =
        ({ s with errors := s.errors ++
            [{ line_start := c.pos.line, column_start := c.pos.column,
               line_end := -1, column_end := -1,
               msg := "undefined function: \x27" ++ c.name ++ "\x27" }] },
         .constVal (.nullConst (.int 32)))) ∧
    (∀ fe, lookupA s.fn_table c.name = some fe →
      fe.proto_node.params.length ≠ c.args.length →
      gen_fn_call s c =
        ({ s with errors := s.errors ++
            [{ line_start := c.pos.line, column_start := c.pos.column,
               line_end := -1, column_end := -1,
               msg := "wrong number of arguments. Expected " ++
                 toString fe.proto_node.params.length ++ ", got " ++
                 toString c.args.length ++ "." }] },
         .constVal (.nullConst (.int 32)))) := by
  rcases c with ⟨pos, name, args⟩
  constructor
  · intro hl
    simp only [FnCallNode.name] at hl
    simp only [gen_fn_call, hl]
    rfl
  · intro fe hl harr
    simp only [FnCallNode.name] at hl
    simp only [FnCallNode.args] at harr
    simp only [gen_fn_call, hl, if_pos harr]
    rfl

/-- Claim C4 witness: a call to the undefined function nope from the seeded
state records the undefined-function diagnostic and yields the i32 null
constant. -/
theorem claim_C4_witness :
    gen_fn_call (add_types initSt) (.mk ⟨2, 5⟩ "nope" []) =
      ({ add_types initSt with errors := (add_types initSt).errors ++
          [{ line_start := 2, column_start := 5, line_end := -1,
             column_end := -1,
             msg := "undefined function: \x27nope\x27" }] },
       .constVal (.nullConst (.int 32))) := by
  have h := (claim_C4_theorem (add_types initSt) (.mk ⟨2, 5⟩ "nope" [])).1 rfl
  exact h

/-- Claim C5: on a FnDef whose prototype name is already registered, the
analyzer records exactly one redefinition diagnostic at the duplicate node
coordinates and changes nothing else, so the first-inserted node stays the
mapping and the duplicate prototype is not visited; otherwise it analyzes
the prototype only, stores the node (its prototype annotated, its body as
parsed) in fn_defs, and the stored prototype strips back to this
definition's own prototype. -/
theorem claim_C5_theorem (s : St) (d : FnDef) :
    (∀ a, lookupA s.fn_defs d.fn_proto.name = some a →
      analyze_fn_def s d = { s with errors := s.errors ++
        [{ line_start := d.pos.line, column_start := d.pos.column,
           line_end := -1, column_end := -1,
           msg := "redefinition of \x27" ++ d.fn_proto.name ++ "\x27" }] }) ∧
    (lookupA s.fn_defs d.fn_proto.name = none →
      analyze_fn_def s d =
        { (analyze_fn_proto s d.fn_proto).1 with
          fn_defs := putA (analyze_fn_proto s d.fn_proto).1.fn_defs
            d.fn_proto.name
            { pos := d.pos, fn_proto := (analyze_fn_proto s d.fn_proto).2,
              body := d.body } } ∧
      (analyze_fn_proto s d.fn_proto).2.strip = d.fn_proto) := by
  constructor
  · intro a hl
    simp only [analyze_fn_def, hl]
    rfl
  · intro hl
    refine ⟨?_, analyze_fn_proto_strip d.fn_proto s⟩
    rcases hr : analyze_fn_proto s d.fn_proto with ⟨s1, ap⟩
    simp only [analyze_fn_def, hl, hr]

/-- Claim C5 witness: a second definition of g is rejected with exactly one
redefinition diagnostic and no other state change. -/
theorem claim_C5_witness :
    analyze_fn_def example_dup_state example_dup_def =
      { example_dup_state with errors := example_dup_state.errors ++
        [{ line_start := 2, column_start := 1, line_end := -1,
           column_end := -1,
           msg := "redefinition of \x27g\x27" }] } := by
  have h := (claim_C5_theorem example_dup_state example_dup_def).1 _ rfl
  exact h

/-- Claim C6: lowering a FnCall whose resolved callee returns unreachable
emits exactly one unreachable terminator immediately after the call
instruction and the terminator handle is the value of the expression; for
any other return type no unreachable terminator is emitted and the call
result is the value. -/
theorem claim_C6_theorem (s : St) (c : FnCallNode) (fe : FnTableEntry)
    (hl : lookupA s.fn_table c.name = some fe)
    (har : fe.proto_node.params.length = c.args.length) :
    (type_is_unreachableA fe.proto_node.return_type = true →
      gen_fn_call s c =
        ({ (gen_expr_list s c.args).1 with
            instrs := (gen_expr_list s c.args).1.instrs ++
              [.call fe.fn_value (gen_expr_list s c.args).2,
               .unreachableInstr] },
         .instrRef ((gen_expr_list s c.args).1.instrs.length + 1))) ∧
    (type_is_unreachableA fe.proto_node.return_type = false →
      gen_fn_call s c =
        ({ (gen_expr_list s c.args).1 with
            instrs := (gen_expr_list s c.args).1.instrs ++
              [.call fe.fn_value (gen_expr_list s c.args).2] },
         .instrRef (gen_expr_list s c.args).1.instrs.length)) := by
  rcases c with ⟨pos, name, args⟩
  simp only [FnCallNode.name] at hl
  simp only [FnCallNode.args] at har ⊢
  rcases hg : gen_expr_list s args with ⟨s1, vals⟩
  constructor
  · intro hun
    simp only [gen_fn_call, hl, if_neg (by omega : ¬ (fe.proto_node.params.length ≠ args.length)), hg, emit, hun, if_pos rfl]
    simp [List.append_assoc]
  · intro hun
    simp only [gen_fn_call, hl, if_neg (by omega : ¬ (fe.proto_node.params.length ≠ args.length)), hg, emit, hun]
    simp

/-- Claim C6 witness: a zero-argument call to the extern exit, whose return
type is unreachable, emits the call followed by exactly one unreachable
terminator whose handle is the value. -/
theorem claim_C6_witness :
    gen_fn_call example_call_state (.mk ⟨2, 3⟩ "exit" []) =
      ({ example_call_state with instrs := example_call_state.instrs ++
          [.call 0 [], .unreachableInstr] },
       .instrRef 1) := by
  have h := (claim_C6_theorem example_call_state (.mk ⟨2, 3⟩ "exit" [])
    { fn_value := 0,
      proto_node :=
        { pos := ⟨1, 9⟩, name := "exit", params := [],
          return_type := .primitive ⟨1, 20⟩ "unreachable" 3 } }
    rfl rfl).1 rfl
  exact h

/-- Claim C7: resolving a Primitive TypeRef whose name misses the registry
attaches the invalid-type sentinel and records exactly one diagnostic
invalid type name: <name> at the node coordinates; on a hit no diagnostic
is recorded and the registry entity is attached.  The sentinel installed by
add_types is the void entity itself (arena index 2), whose IR handle is the
void type. -/
theorem claim_C7_theorem (s : St) (pos : Pos) (n : String) :
    (lookupA s.type_table n = none →
      resolve_type_and_recurse s (.primitive pos n) =
        ({ s with errors := s.errors ++
            [{ line_start := pos.line, column_start := pos.column,
               line_end := -1, column_end := -1,
               msg := "invalid type name: \x27" ++ n ++ "\x27" }] },
         .primitive pos n s.invalid_type_entry)) ∧
    (∀ e, lookupA s.type_table n = some e →
      resolve_type_and_recurse s (.primitive pos n) =
        (s, .primitive pos n e)) ∧
    (add_types initSt).invalid_type_entry = voidEntity ∧
    (getEnt (add_types initSt) voidEntity).id = .voidId ∧
    (getEnt (add_types initSt) voidEntity).type_ref = .voidT := by
  refine ⟨?_, ?_, rfl, rfl, rfl⟩
  · intro hl
    simp only [resolve_type_and_recurse, hl]
    rfl
  · intro e hl
    simp only [resolve_type_and_recurse, hl]

/-- Claim C7 witness: resolving the unknown primitive name foo from the
seeded state attaches the sentinel (the void entity, index 2) and records
the diagnostic at the node coordinates. -/
theorem claim_C7_witness :
    resolve_type_and_recurse (add_types initSt) (.primitive ⟨3, 4⟩ "foo") =
      ({ add_types initSt with errors := (add_types initSt).errors ++
          [{ line_start := 3, column_start := 4, line_end := -1,
             column_end := -1,
             msg := "invalid type name: \x27foo\x27" }] },
       .primitive ⟨3, 4⟩ "foo" 2) := by
  have h := (claim_C7_theorem (add_types initSt) ⟨3, 4⟩ "foo").1 rfl
  exact h

/-- Claim C10: when lowering a FnCall records an undefined-function or
arity-mismatch diagnostic, none of the argument expressions are lowered: no
instructions are emitted, no globals or string-pool entries are created,
the module and type state are untouched, and exactly one diagnostic is
appended. -/
theorem claim_C10_theorem (s : St) (c : FnCallNode)
    (h : lookupA s.fn_table c.name = none ∨
      ∃ fe, lookupA s.fn_table c.name = some fe ∧
        fe.proto_node.params.length ≠ c.args.length) :
    (gen_fn_call s c).1.instrs = s.instrs ∧
    (gen_fn_call s c).1.mod = s.mod ∧
    (gen_fn_call s c).1.str_table = s.str_table ∧
    (gen_fn_call s c).1.fn_table = s.fn_table ∧
    (gen_fn_call s c).1.arena = s.arena ∧
    ∃ m, (gen_fn_call s c).1.errors = s.errors ++ [m] := by
  rcases c with ⟨pos, name, args⟩
  simp only [FnCallNode.name, FnCallNode.args] at h
  rcases h with hl | ⟨fe, hl, harr⟩
  · simp only [gen_fn_call, hl]
    exact ⟨rfl, rfl, rfl, rfl, rfl, _, rfl⟩
  · simp only [gen_fn_call, hl, if_pos harr]
    exact ⟨rfl, rfl, rfl, rfl, rfl, _, rfl⟩

/-- Claim C10 witness: the failed call to nope leaves instructions, module,
string pool, function table and type arena unchanged and appends exactly
one diagnostic. -/
theorem claim_C10_witness :
    (gen_fn_call (add_types initSt) (.mk ⟨2, 5⟩ "oops" [])).1.instrs =
      (add_types initSt).instrs ∧
    (gen_fn_call (add_types initSt) (.mk ⟨2, 5⟩ "oops" [])).1.str_table =
      (add_types initSt).str_table ∧
    ∃ m, (gen_fn_call (add_types initSt) (.mk ⟨2, 5⟩ "oops" [])).1.errors =
      (add_types initSt).errors ++ [m] := by
  have h := claim_C10_theorem (add_types initSt) (.mk ⟨2, 5⟩ "oops" [])
    (Or.inl rfl)
  exact ⟨h.1, h.2.2.1, h.2.2.2.2.2⟩

/-- Claim C1 (amended): the first String expression with a given byte
content creates exactly one IR global — private, constant, unnamed-address,
initialized with the literal bytes followed by one NUL terminator byte
(LLVMConstString is called with DontNullTerminate false at
codegen.cpp:421) — and registers it in the string pool; every later String
expression with equal byte content reuses that same global; in both cases
the expression value is a two-index in-bounds element-address instruction
on the global with both indices the i32 constant 0. -/
theorem claim_C1_theorem (s : St) (pos : Pos) (bytes : List Nat) :
    (lookupB s.str_table bytes = none →
      gen_expr s (.stringLit pos bytes) =
        ({ s with
            mod := { s.mod with globals := s.mod.globals ++
              [{ ty := .arr (bytes.length + 1) (.int 8), gname := "",
                 linkage := .privateLinkage,
                 initializer := some (.stringConst (bytes ++ [0])),
                 is_constant := true, unnamed_addr := true }] },
            str_table := putB s.str_table bytes s.mod.globals.length,
            instrs := s.instrs ++
              [.gep (.globalRef s.mod.globals.length)
                [.intConst (.int 32) 0, .intConst (.int 32) 0] true] },
         .instrRef s.instrs.length)) ∧
    (∀ g, lookupB s.str_table bytes = some g →
      gen_expr s (.stringLit pos bytes) =
        ({ s with instrs := s.instrs ++
            [.gep (.globalRef g)
              [.intConst (.int 32) 0, .intConst (.int 32) 0] true] },
         .instrRef s.instrs.length)) := by
  constructor
  · intro hl
    simp only [gen_expr, find_or_create_string, hl, llvmConstString,
      constTypeOf, emit]
    simp [List.length_append]
  · intro g hl
    simp only [gen_expr, find_or_create_string, hl, emit]

/-- Claim C1 counterexample: the global created for the literal bytes
104, 105 is initialized with 104, 105, 0 — a NUL terminator byte IS
appended, because LLVMConstString is called with DontNullTerminate false —
contradicting the claim that the initializer holds exactly the literal
bytes with no terminator byte appended. -/
theorem claim_C1_counterexample :
    ((gen_expr (add_types initSt)
      (.stringLit ⟨1, 1⟩ [104, 105])).1.mod.globals.map
        (fun g => g.initializer)) = [some (.stringConst [104, 105, 0])] ∧
    LLVMConst.stringConst [104, 105, 0] ≠ .stringConst [104, 105] := by
  refine ⟨rfl, ?_⟩
  intro h
  injection h with h1
  simp at h1

/-- Claim C1 witness: lowering the string literal hi from the seeded state
creates exactly one private constant unnamed-address global holding
104, 105, 0 and returns the handle of the GEP instruction. -/
theorem claim_C1_witness :
    (gen_expr (add_types initSt)
      (.stringLit ⟨1, 1⟩ [104, 105])).1.mod.globals =
      [{ ty := .arr 3 (.int 8), gname := "", linkage := .privateLinkage,
         initializer := some (.stringConst [104, 105, 0]),
         is_constant := true, unnamed_addr := true }] ∧
    (gen_expr (add_types initSt) (.stringLit ⟨1, 1⟩ [104, 105])).2 =
      .instrRef 0 := by
  have h := (claim_C1_theorem (add_types initSt) ⟨1, 1⟩ [104, 105]).1 rfl
  rw [h]
  exact ⟨rfl, rfl⟩

/-- Claim C2 (amended): for every pair of TypeRef nodes resolved during one
run from the freshly seeded registry whose primitive leaves are registry
primitive names (u8, i32, void, unreachable — any other leaf either fails
to resolve, attaching the shared sentinel, or collides with a pointer
display name, which no parser-produced identifier can), the attached type
entities are the same arena identity if and only if the two nodes are
structurally equal, that is, equal up to source positions.  In particular
two pointer TypeRefs over the same resolved child with the same constness
flag share one entity, and structurally unequal TypeRefs have distinct
entities. -/
theorem claim_C2_theorem (ts : List TypeRefNode)
    (hseed : ∀ t ∈ ts, seeded_leaves t = true)
    (a b : ATypeRef)
    (ha : a ∈ all_resolved_subnodes ts)
    (hb : b ∈ all_resolved_subnodes ts) :
    a.entry = b.entry ↔ a.toTy = b.toTy := by
  have hgood : Good (add_types initSt) := good_add_types initSt rfl rfl
  rcases hr : resolve_type_list (add_types initSt) ts with ⟨s', ats⟩
  have hspec := resolve_list_spec ts (add_types initSt) hgood hseed
  rw [hr] at hspec
  dsimp only at hspec
  obtain ⟨g', _, noks⟩ := hspec
  rw [all_resolved_subnodes, hr] at ha hb
  dsimp only at ha hb
  obtain ⟨la, hla, haa⟩ := List.mem_flatten.mp ha
  obtain ⟨ta, hta, rfl⟩ := List.mem_map.mp hla
  obtain ⟨hlta, hdena⟩ := noks ta hta a haa
  obtain ⟨lb, hlb, hbb⟩ := List.mem_flatten.mp hb
  obtain ⟨tb, htb, rfl⟩ := List.mem_map.mp hlb
  obtain ⟨hltb, hdenb⟩ := noks tb htb b hbb
  constructor
  · intro he
    rw [← hdena, ← hdenb, he]
  · intro ht
    exact denote_inj s' g' a.entry hlta b.entry hltb
      (by rw [hdena, hdenb, ht])

/-- Claim C2 counterexample: resolving, in one run, a pointer type over u8,
a primitive spelled like its display name, and the two invalid names foo
and bar, produces pairs of structurally unequal TypeRef nodes attached to
one and the same entity (both invalid names attach the sentinel, index 2;
the display-name primitive attaches the interned pointer entity, index 4),
so the claim as stated — same identity iff structurally equal for every
pair of resolved TypeRef nodes — is false on the code. -/
theorem claim_C2_counterexample :
    ¬ (∀ a ∈ all_resolved_subnodes
        [.pointer ⟨1, 1⟩ true (.primitive ⟨1, 2⟩ "u8"),
         .primitive ⟨2, 1⟩ "*const u8",
         .primitive ⟨3, 1⟩ "foo", .primitive ⟨4, 1⟩ "bar"],
       ∀ b ∈ all_resolved_subnodes
        [.pointer ⟨1, 1⟩ true (.primitive ⟨1, 2⟩ "u8"),
         .primitive ⟨2, 1⟩ "*const u8",
         .primitive ⟨3, 1⟩ "foo", .primitive ⟨4, 1⟩ "bar"],
        (a.entry = b.entry ↔ a.toTy = b.toTy)) := by
  decide

/-- Claim C2 witness: spec scenario S5 — in a run resolving *const u8
twice and *mut u8 once, the two *const u8 nodes share entity identity and
are structurally equal, while *mut u8 is structurally different and gets a
distinct entity. -/
theorem claim_C2_witness :
    (ATypeRef.pointer ⟨1, 1⟩ true (.primitive ⟨1, 2⟩ "u8" 0) 4).toTy =
      (ATypeRef.pointer ⟨2, 1⟩ true (.primitive ⟨2, 2⟩ "u8" 0) 4).toTy ∧
    (ATypeRef.pointer ⟨1, 1⟩ true (.primitive ⟨1, 2⟩ "u8" 0) 4).toTy ≠
      (ATypeRef.pointer ⟨3, 1⟩ false (.primitive ⟨3, 2⟩ "u8" 0) 5).toTy := by
  have h1 := claim_C2_theorem
    [.pointer ⟨1, 1⟩ true (.primitive ⟨1, 2⟩ "u8"),
     .pointer ⟨2, 1⟩ true (.primitive ⟨2, 2⟩ "u8"),
     .pointer ⟨3, 1⟩ false (.primitive ⟨3, 2⟩ "u8")]
    (by decide)
    (ATypeRef.pointer ⟨1, 1⟩ true (.primitive ⟨1, 2⟩ "u8" 0) 4)
    (ATypeRef.pointer ⟨2, 1⟩ true (.primitive ⟨2, 2⟩ "u8" 0) 4)
    (by decide) (by decide)
  have h2 := claim_C2_theorem
    [.pointer ⟨1, 1⟩ true (.primitive ⟨1, 2⟩ "u8"),
     .pointer ⟨2, 1⟩ true (.primitive ⟨2, 2⟩ "u8"),
     .pointer ⟨3, 1⟩ false (.primitive ⟨3, 2⟩ "u8")]
    (by decide)
    (ATypeRef.pointer ⟨1, 1⟩ true (.primitive ⟨1, 2⟩ "u8" 0) 4)
    (ATypeRef.pointer ⟨3, 1⟩ false (.primitive ⟨3, 2⟩ "u8" 0) 5)
    (by decide) (by decide)
  refine ⟨h1.mp rfl, fun hty => ?_⟩
  have h45 := h2.mpr hty
  exact absurd h45 (by decide)

end ZigCodegen
